import Mathlib

/-!
Shallow embedding of `forex_scanner.py` (a small forex rate scanner) and
proofs of its specified properties.

Modelling conventions:
* Python strings are `List Char` (named `Str` here); the relevant Python
  string methods (`replace`, `strip`, `upper`, `split`, `float()`) are
  embedded as executable functions over `List Char`.  `upper` is the ASCII
  case map (`Char.toUpper`), and `strip` removes the ASCII whitespace
  characters; the inputs of this program are ASCII.
* Python `float` values are modelled as rationals (`ℚ`); `float()` applied
  to a string is `parseFloat?`, a parser for plain signed decimal literals
  (the provider's number format); a string it rejects corresponds to
  Python's `ValueError`.
* `ForexScannerError` (one exception class whose messages distinguish the
  raise sites) is the tagged type `ScanError`, one constructor per raise
  site, carrying the data interpolated into the message.
* The HTTP boundary (`requests.get` + `raise_for_status` + `response.json()`)
  is an oracle: each call's observable outcome is an `HttpOutcome` — a
  raised `requests.RequestException`, or a response with a status code and
  a body that either decodes as JSON or does not.  The loop in
  `run_scanner` is driven by an oracle indexed by pair position and
  attempt number, and the performed calls and sleeps are recorded in an
  event trace.
-/

abbrev Str := List Char

instance {ε α : Type} [DecidableEq ε] [DecidableEq α] : DecidableEq (Except ε α) := fun x y =>
  match x, y with
  | .ok a, .ok b => decidable_of_iff (a = b) (by simp)
  | .error e, .error f => decidable_of_iff (e = f) (by simp)
  | .ok _, .error _ => .isFalse (by simp)
  | .error _, .ok _ => .isFalse (by simp)

/-- The ASCII whitespace characters stripped by Python's `str.strip()`
(space, tab, newline, carriage return, vertical tab, form feed). -/
def isSpaceChar (c : Char) : Bool :=
  c.toNat = 32 || c.toNat = 9 || c.toNat = 10 || c.toNat = 13 ||
  c.toNat = 11 || c.toNat = 12

/-- Remove a trailing run of whitespace (the right half of `str.strip()`). -/
def rstripRec : Str → Str
  | [] => []
  | c :: rest =>
    let r := rstripRec rest
    if r = [] then (if isSpaceChar c then [] else [c]) else c :: r

/-- Python `str.strip()`: drop leading and trailing whitespace. -/
def pyStrip (s : Str) : Str :=
  rstripRec (s.dropWhile isSpaceChar)

/-- The character map of `raw.replace("-", "/")`: the replaced substring is
a single character, so `replace` acts pointwise. -/
def repChar (c : Char) : Char :=
  if c = '-' then '/' else c

/-- The string `raw.replace("-", "/").strip().upper()` computed in
`parse_pairs` (source line 82). -/
def cleanedOf (raw : Str) : Str :=
  (pyStrip (raw.map repChar)).map Char.toUpper

/-- The tagged domain-error type: one constructor per `ForexScannerError`
raise site of `forex_scanner.py`, carrying the data interpolated into the
corresponding message. -/
inductive ScanError
  /-- parse_pairs: no separator in the cleaned string (line 84). -/
  | invalidPairFormat (raw : Str)
  /-- parse_pairs: empty base or quote side (line 89). -/
  | invalidPairEmptySide (raw : Str)
  /-- run_scanner: falsy api key (line 138). -/
  | missingApiKey
  /-- fetch_exchange_rate: requests exception from get/raise_for_status (line 109). -/
  | networkError (base quote msg : Str)
  /-- fetch_exchange_rate: payload carries an Error Message field (line 115). -/
  | apiError (base quote msg : Str)
  /-- fetch_exchange_rate: payload carries a Note field (line 119). -/
  | apiLimit (base quote msg : Str)
  /-- fetch_exchange_rate: payload lacks the realtime data key (line 124). -/
  | unexpectedSchema (base quote : Str)
  /-- ExchangeRate.from_api: KeyError on a required field (line 57). -/
  | missingField (field : Str)
  /-- ExchangeRate.from_api: ValueError from float() on the rate (line 59). -/
  | invalidNumeric (value : Str)
  /-- load_demo_data: pair not in the demo table (line 244). -/
  | demoUnavailable (key : Str)
deriving DecidableEq

/-- The normalized result record (dataclass `ExchangeRate`). -/
structure ExchangeRate where
  from_currency : Str
  to_currency : Str
  rate : ℚ
  last_refreshed : Str
  bid_price : Option ℚ
  ask_price : Option ℚ
deriving DecidableEq

/-- First-match lookup in an association list: the membership test and
subscript access on a Python dict (JSON objects have unique keys). -/
def getKey {α : Type} (m : List (Str × α)) (k : Str) : Option α :=
  match m with
  | [] => none
  | (k₀, v) :: rest => if k₀ = k then some v else getKey rest k

/-- A digit character `0`-`9`. -/
def isDigitChar (c : Char) : Bool :=
  48 ≤ c.toNat && c.toNat ≤ 57

/-- Value of a digit string read in base 10. -/
def digitsToNat (s : Str) : Nat :=
  s.foldl (fun a c => a * 10 + (c.toNat - 48)) 0

/-- Unsigned decimal literal: digits with an optional dot, at least one
digit in total.  The value of `ip.fp` is the rational
`(ip * 10 ^ |fp| + fp) / 10 ^ |fp|`, built with `Rat.divInt` (the
irreducible field operations of `ℚ` would block kernel evaluation). -/
def parseUnsignedDec? (s : Str) : Option ℚ :=
  let ip := s.takeWhile (fun c => c ≠ '.')
  match s.dropWhile (fun c => c ≠ '.') with
  | [] =>
    if ip ≠ [] ∧ ip.all isDigitChar then some (Rat.divInt (digitsToNat ip) 1) else none
  | _ :: fp =>
    if (ip ≠ [] ∨ fp ≠ []) ∧ ip.all isDigitChar ∧ fp.all isDigitChar then
      some (Rat.divInt (digitsToNat ip * 10 ^ fp.length + digitsToNat fp) (10 ^ fp.length))
    else none

/-- Model of Python `float()` on a string: strip whitespace, optional
sign, plain decimal literal.  `none` is a `ValueError`.  (Python's
exotic float spellings — exponents, `inf`, `nan`, underscores — are
outside the provider's number format and not modelled.) -/
def parseFloat? (s : Str) : Option ℚ :=
  match pyStrip s with
  | '+' :: u => parseUnsignedDec? u
  | '-' :: u => (parseUnsignedDec? u).map (fun x => -x)
  | u => parseUnsignedDec? u

/-- The numbered provider field labels used by `ExchangeRate.from_api`. -/
def fromCurrencyKey : Str := ("1. From_Currency Code").data

/-- Provider label of the quote currency code. -/
def toCurrencyKey : Str := ("3. To_Currency Code").data

/-- Provider label of the exchange rate. -/
def rateKey : Str := ("5. Exchange Rate").data

/-- Provider label of the refresh timestamp. -/
def lastRefreshedKey : Str := ("6. Last Refreshed").data

/-- Provider label of the bid price. -/
def bidKey : Str := ("8. Bid Price").data

/-- Provider label of the ask price. -/
def askKey : Str := ("9. Ask Price").data

/-- The flat string-to-string JSON subtree handed to `ExchangeRate.from_api`. -/
abbrev SubPayload := List (Str × Str)

/-- `ExchangeRate._parse_optional_float`: `None` or the empty string give
absence, and a `float()` failure is caught and also gives absence. -/
def ExchangeRate.parse_optional_float (value : Option Str) : Option ℚ :=
  match value with
  | none => none
  | some v => if v = [] then none else parseFloat? v

/-- `ExchangeRate.from_api`: required fields are read (and the rate parsed)
in source order, so the first failing access determines the error; bid and
ask are read leniently afterwards. -/
def ExchangeRate.from_api (payload : SubPayload) : Except ScanError ExchangeRate :=
  match getKey payload fromCurrencyKey with
  | none => .error (.missingField fromCurrencyKey)
  | some from_code =>
    match getKey payload toCurrencyKey with
    | none => .error (.missingField toCurrencyKey)
    | some to_code =>
      match getKey payload rateKey with
      | none => .error (.missingField rateKey)
      | some rateStr =>
        match parseFloat? rateStr with
        | none => .error (.invalidNumeric rateStr)
        | some rate =>
          match getKey payload lastRefreshedKey with
          | none => .error (.missingField lastRefreshedKey)
          | some last_refreshed =>
            .ok { from_currency := from_code
                  to_currency := to_code
                  rate := rate
                  last_refreshed := last_refreshed
                  bid_price := ExchangeRate.parse_optional_float (getKey payload bidKey)
                  ask_price := ExchangeRate.parse_optional_float (getKey payload askKey) }

/-- One raw pair string normalized to a `(base, quote)` tuple: the body of
the loop in `parse_pairs` (lines 81-92). -/
def parse_pair (raw : Str) : Except ScanError (Str × Str) :=
  let cleaned := cleanedOf raw
  if ('/' : Char) ∈ cleaned then
    let base := cleaned.takeWhile (fun c => c ≠ '/')
    let quote := (cleaned.dropWhile (fun c => c ≠ '/')).tail
    if base = [] ∨ quote = [] then .error (.invalidPairEmptySide raw)
    else .ok (base, quote)
  else .error (.invalidPairFormat raw)

/-- `parse_pairs`: normalize each raw string in order, aborting at the
first invalid one. -/
def parse_pairs : List Str → Except ScanError (List (Str × Str))
  | [] => .ok []
  | raw :: rest => do
    let p ← parse_pair raw
    let ps ← parse_pairs rest
    pure (p :: ps)

/-- The portion of a provider JSON payload observed by
`fetch_exchange_rate`: membership and value of the three keys
`Error Message`, `Note` and `Realtime Currency Exchange Rate` (the last
one a nested object per the wire contract). -/
structure ApiPayload where
  errorMessage : Option Str
  note : Option Str
  realtime : Option SubPayload
deriving DecidableEq

/-- The body of an HTTP response: either it decodes as JSON or
`response.json()` raises. -/
inductive Body
  /-- A body on which `response.json()` raises a JSON decode error
  (an exception `fetch_exchange_rate` does not catch). -/
  | notJson (msg : Str)
  /-- A body decoding to the JSON object `payload`. -/
  | json (payload : ApiPayload)
deriving DecidableEq

/-- Observable outcome of one `requests.get` + `raise_for_status` +
`response.json()` interaction, supplied by the environment. -/
inductive HttpOutcome
  /-- `requests.get` itself raises a `requests.RequestException`. -/
  | exn (msg : Str)
  /-- A response arrives, with its HTTP status code and body. -/
  | response (status : Nat) (body : Body)
deriving DecidableEq

/-- How a call of `fetch_exchange_rate` terminates abnormally: with the
domain exception `ForexScannerError`, or with a raw exception it does not
catch. -/
inductive FetchError
  /-- A raised `ForexScannerError`. -/
  | domain (e : ScanError)
  /-- A raised non-domain exception (the JSON decode error of
  `response.json()`, which sits outside the try block). -/
  | raw (msg : Str)
deriving DecidableEq

/-- `fetch_exchange_rate` (lines 96-127), with the network interaction
abstracted by `outcome`.  The `api_key` argument only enters the request
parameters (boundary I/O), so it does not appear here; the classification
follows the source exactly: requests exception (including the one raised
by `raise_for_status` on a 4xx/5xx status) → network error; then
`response.json()` (raising uncaught on a non-JSON body); then the
`Error Message`, `Note` and data-key checks in order. -/
def fetch_exchange_rate (outcome : HttpOutcome) (base quote : Str) :
    Except FetchError ExchangeRate :=
  match outcome with
  | .exn msg => .error (.domain (.networkError base quote msg))
  | .response status body =>
    if 400 ≤ status ∧ status < 600 then
      .error (.domain (.networkError base quote (Nat.toDigits 10 status)))
    else
      match body with
      | .notJson msg => .error (.raw msg)
      | .json payload =>
        match payload.errorMessage with
        | some m => .error (.domain (.apiError base quote m))
        | none =>
          match payload.note with
          | some m => .error (.domain (.apiLimit base quote m))
          | none =>
            match payload.realtime with
            | none => .error (.domain (.unexpectedSchema base quote))
            | some sub =>
              match ExchangeRate.from_api sub with
              | .error e => .error (.domain e)
              | .ok r => .ok r

/-- Trace events of a scan: each provider call (tagged with the position
of its pair in the input list) and each `time.sleep`. -/
inductive Event
  | fetchAttempt (idx : Nat) (base quote : Str)
  | sleep (duration : ℚ)
deriving DecidableEq

/-- The `while True` retry loop of `run_scanner` (lines 145-155) for one
pair.  `oracle n` is the outcome of the pair's attempt number `n`;
`fuel` is the number of retries still allowed (`retry - attempt` in the
source, where the loop re-raises once `attempt > retry`).  Only the
domain exception is caught by the `except ForexScannerError` clause; a
raw exception propagates at once.  Returns the trace of calls and sleeps
together with the loop's result. -/
def retryLoop (oracle : Nat → HttpOutcome) (idx : Nat) (base quote : Str)
    (retry_delay : ℚ) : Nat → Nat → List Event × Except FetchError ExchangeRate
  | fuel, attempt =>
    match fetch_exchange_rate (oracle attempt) base quote, fuel with
    | .ok r, _ => ([.fetchAttempt idx base quote], .ok r)
    | .error (.raw m), _ => ([.fetchAttempt idx base quote], .error (.raw m))
    | .error (.domain e), 0 => ([.fetchAttempt idx base quote], .error (.domain e))
    | .error (.domain _), f + 1 =>
      let rest := retryLoop oracle idx base quote retry_delay f (attempt + 1)
      (.fetchAttempt idx base quote :: .sleep retry_delay :: rest.1, rest.2)

/-- The `for base, quote in pairs` loop of `run_scanner` (lines 144-156):
each pair is processed by one full retry loop; the first propagated
error aborts the batch (the `results` accumulated so far are discarded
with the raise).  `provider i n` is the outcome of attempt `n` for the
pair at position `i`. -/
def scanPairs (provider : Nat → Nat → HttpOutcome) (retry : Nat)
    (retry_delay : ℚ) : Nat → List (Str × Str) →
    List Event × Except FetchError (List ExchangeRate)
  | _, [] => ([], .ok [])
  | idx, (base, quote) :: rest =>
    let first := retryLoop (provider idx) idx base quote retry_delay retry 0
    match first.2 with
    | .error e => (first.1, .error e)
    | .ok r =>
      let others := scanPairs provider retry retry_delay (idx + 1) rest
      (first.1 ++ others.1,
        match others.2 with
        | .ok rs => .ok (r :: rs)
        | .error e => .error e)

/-- `run_scanner` (lines 130-156): a falsy api key (`None` or the empty
string) fails with the missing-key error before any provider call;
otherwise the pairs are scanned sequentially.  The first component is
the trace of provider calls and sleeps actually performed. -/
def run_scanner (provider : Nat → Nat → HttpOutcome)
    (pairs : List (Str × Str)) (api_key : Option Str) (retry : Nat)
    (retry_delay : ℚ) : List Event × Except FetchError (List ExchangeRate) :=
  match api_key with
  | none => ([], .error (.domain .missingApiKey))
  | some k =>
    if k = [] then ([], .error (.domain .missingApiKey))
    else scanPairs provider retry retry_delay 0 pairs

/-- The fixed demo table of `load_demo_data` (lines 198-239), keyed by
`"BASE/QUOTE"`. -/
def demo_payload : List (Str × SubPayload) :=
  [ (("EUR/USD").data,
      [ (fromCurrencyKey, ("EUR").data), (toCurrencyKey, ("USD").data),
        (rateKey, ("1.08650").data), (lastRefreshedKey, ("2024-05-01 15:35:00").data),
        (bidKey, ("1.08630").data), (askKey, ("1.08670").data) ]),
    (("GBP/USD").data,
      [ (fromCurrencyKey, ("GBP").data), (toCurrencyKey, ("USD").data),
        (rateKey, ("1.24510").data), (lastRefreshedKey, ("2024-05-01 15:35:00").data),
        (bidKey, ("1.24490").data), (askKey, ("1.24530").data) ]),
    (("USD/JPY").data,
      [ (fromCurrencyKey, ("USD").data), (toCurrencyKey, ("JPY").data),
        (rateKey, ("154.8200").data), (lastRefreshedKey, ("2024-05-01 15:35:00").data),
        (bidKey, ("154.7800").data), (askKey, ("154.8600").data) ]),
    (("USD/CHF").data,
      [ (fromCurrencyKey, ("USD").data), (toCurrencyKey, ("CHF").data),
        (rateKey, ("0.90680").data), (lastRefreshedKey, ("2024-05-01 15:35:00").data),
        (bidKey, ("0.90660").data), (askKey, ("0.90700").data) ]),
    (("AUD/USD").data,
      [ (fromCurrencyKey, ("AUD").data), (toCurrencyKey, ("USD").data),
        (rateKey, ("0.65320").data), (lastRefreshedKey, ("2024-05-01 15:35:00").data),
        (bidKey, ("0.65300").data), (askKey, ("0.65340").data) ]) ]

/-- `load_demo_data` (lines 197-248): look each pair up in the fixed
table in order, aborting on the first absent key; the records are built
by `ExchangeRate.from_api` on the stored payloads.  It takes only the
pairs list — no credential. -/
def load_demo_data : List (Str × Str) → Except ScanError (List ExchangeRate)
  | [] => .ok []
  | (base, quote) :: rest =>
    let key := base ++ '/' :: quote
    match getKey demo_payload key with
    | none => .error (.demoUnavailable key)
    | some sub =>
      match ExchangeRate.from_api sub with
      | .error e => .error e
      | .ok r =>
        match load_demo_data rest with
        | .error e => .error e
        | .ok rs => .ok (r :: rs)

/-- The inputs of `main` that reach the core (CLI parsing itself is out of
scope): the raw pair strings, the resolved credential (`--api-key` or the
environment variable), the retry count and delay, and the demo flag. -/
structure Args where
  pairs : List Str
  api_key : Option Str
  retry : ℤ
  retry_delay : ℚ
  demo : Bool

/-- How a `main` invocation ends. -/
inductive RunOutcome
  /-- Exit code 0 with this result list (rendering/saving are out of scope). -/
  | success (rates : List ExchangeRate)
  /-- A `ForexScannerError` caught by `main`: one `Error:` line, exit code 1. -/
  | failure (e : ScanError)
  /-- An exception `main` does not catch. -/
  | crash (msg : Str)
deriving DecidableEq

/-- The decision core of `main` (lines 300-313): parse the pairs, then
either the demo lookup or `run_scanner` with the clamped retry count
`max(0, args.retry)` and delay `max(0.5, args.retry_delay)`.  Rendering
and snapshot writing consume the result and are out of scope. -/
def mainCore (provider : Nat → Nat → HttpOutcome) (args : Args) :
    List Event × RunOutcome :=
  match parse_pairs args.pairs with
  | .error e => ([], .failure e)
  | .ok pairs =>
    if args.demo then
      match load_demo_data pairs with
      | .error e => ([], .failure e)
      | .ok rs => ([], .success rs)
    else
      let run := run_scanner provider pairs args.api_key
        (max 0 args.retry).toNat (max (Rat.divInt 1 2) args.retry_delay)
      match run.2 with
      | .ok rs => (run.1, .success rs)
      | .error (.domain e) => (run.1, .failure e)
      | .error (.raw m) => (run.1, .crash m)

/-- Does this event record a provider call for the pair at position `i`? -/
def isAttemptAt (i : Nat) : Event → Bool
  | .fetchAttempt j _ _ => j = i
  | .sleep _ => false

/-- Is this domain error one of the `from_api` field errors (a
`Response missing field` message)? -/
def ScanError.isMissingFieldErr : ScanError → Bool
  | .missingField _ => true
  | _ => false

/-- The offending pair carried by a classification error of
`fetch_exchange_rate` (the errors whose messages interpolate
`base`/`quote`). -/
def ScanError.pairOf : ScanError → Option (Str × Str)
  | .networkError base quote _ => some (base, quote)
  | .apiError base quote _ => some (base, quote)
  | .apiLimit base quote _ => some (base, quote)
  | .unexpectedSchema base quote => some (base, quote)
  | _ => none

/-- Did the fetch failure surface as the domain exception
(`ForexScannerError`) rather than a raw uncaught exception? -/
def FetchError.isDomainErr : FetchError → Bool
  | .domain _ => true
  | .raw _ => false

/-- The outcome shape asserted by the demo-mode claim: success, or a
failure with the demo-pair-unavailable error. -/
def demoClaimOutcome : RunOutcome → Bool
  | .success _ => true
  | .failure (.demoUnavailable _) => true
  | _ => false

/-- Concrete payload with `from-code` and `to-code` present, a
non-numeric rate string, and the `last-refreshed` key missing. -/
def c2Payload : SubPayload :=
  [ (fromCurrencyKey, ("EUR").data), (toCurrencyKey, ("USD").data),
    (rateKey, ("abc").data) ]

/-- Concrete payload whose rate string is the negative number `-1`. -/
def c7Payload : SubPayload :=
  [ (fromCurrencyKey, ("EUR").data), (toCurrencyKey, ("USD").data),
    (rateKey, ("-1").data), (lastRefreshedKey, ("x").data) ]

/-- A success-status HTTP interaction whose body does not decode as JSON. -/
def c5Outcome : HttpOutcome :=
  HttpOutcome.response 200 (.notJson (("surprise html body").data))

/-- A well-formed provider subtree used as a fixture. -/
def wSub : SubPayload :=
  [ (fromCurrencyKey, ("EUR").data), (toCurrencyKey, ("USD").data),
    (rateKey, ("1.5").data), (lastRefreshedKey, ("t").data) ]

/-- A fully successful HTTP interaction carrying `wSub`. -/
def wOk : HttpOutcome :=
  HttpOutcome.response 200 (.json { errorMessage := none, note := none, realtime := some wSub })

/-- A transport failure. -/
def wErr : HttpOutcome :=
  HttpOutcome.exn (("boom").data)

/-- Witness provider: the pair at position 1 always fails, the others
always succeed. -/
def wProvider : Nat → Nat → HttpOutcome :=
  fun i _ => if i = 1 then wErr else wOk

/-- Witness oracle: the first two attempts fail, later ones succeed. -/
def wOracle : Nat → HttpOutcome :=
  fun n => if n < 2 then wErr else wOk

/-- Witness batch of three pairs. -/
def wPairs : List (Str × Str) :=
  [ (("AAA").data, ("BBB").data), (("CCC").data, ("DDD").data),
    (("EEE").data, ("FFF").data) ]

/-- Concrete payload with the currency codes present but no rate key. -/
def wNoRate : SubPayload :=
  [ (fromCurrencyKey, ("EUR").data), (toCurrencyKey, ("USD").data) ]

/-- A JSON payload carrying a provider error message (and, lower in
priority, a notice). -/
def wErrPayload : ApiPayload :=
  { errorMessage := some (("Invalid API call").data),
    note := some (("slow down").data), realtime := none }

/-- Bool checker used in proofs: a fetch-or-parse result has a strictly
positive rate whenever it is a success. -/
def ratePosOk (x : Except ScanError ExchangeRate) : Bool :=
  match x with
  | .ok r => decide (0 < r.rate)
  | .error _ => true

/-- Bool checker used in proofs: is this parse result a success? -/
def isOkResult (x : Except ScanError ExchangeRate) : Bool :=
  match x with
  | .ok _ => true
  | .error _ => false

/-! ### Character-level lemmas about the ASCII case map and whitespace -/

theorem char_eq_of_toNat_eq {c d : Char} (h : c.toNat = d.toNat) : c = d :=
  Char.eq_of_val_eq (UInt32.ext h)

theorem toNat_charOfNat {n : Nat} (h : n < 55296) : (Char.ofNat n).toNat = n := by
  unfold Char.ofNat
  rw [dif_pos (Or.inl h)]
  rfl

theorem toNat_toUpper (c : Char) :
    c.toUpper.toNat = if c.toNat ≥ 97 ∧ c.toNat ≤ 122 then c.toNat - 32 else c.toNat := by
  unfold Char.toUpper
  by_cases h : c.toNat ≥ 97 ∧ c.toNat ≤ 122
  · rw [if_pos h, if_pos h, toNat_charOfNat (by omega)]
  · rw [if_neg h, if_neg h]

theorem toUpper_toUpper (c : Char) : c.toUpper.toUpper = c.toUpper := by
  apply char_eq_of_toNat_eq
  rw [toNat_toUpper, toNat_toUpper c]
  split_ifs <;> omega

theorem toUpper_eq_low {c d : Char} (hd : d.toNat < 65) (h : c.toUpper = d) : c = d := by
  have ht : c.toUpper.toNat = d.toNat := by rw [h]
  rw [toNat_toUpper] at ht
  split_ifs at ht with hc
  · omega
  · exact char_eq_of_toNat_eq ht

theorem isSpaceChar_eq_false {c : Char} (h : 32 < c.toNat) : isSpaceChar c = false := by
  simp only [isSpaceChar, Bool.or_eq_false_iff, decide_eq_false_iff_not]
  omega

theorem isSpaceChar_toUpper (c : Char) : isSpaceChar c.toUpper = isSpaceChar c := by
  by_cases h : c.toNat ≥ 97 ∧ c.toNat ≤ 122
  · have ht : c.toUpper.toNat = c.toNat - 32 := by rw [toNat_toUpper, if_pos h]
    rw [isSpaceChar_eq_false (by omega), isSpaceChar_eq_false (by omega)]
  · have ht : c.toUpper.toNat = c.toNat := by rw [toNat_toUpper, if_neg h]
    unfold isSpaceChar
    rw [ht]

theorem repChar_ne_dash (c : Char) : repChar c ≠ '-' := by
  unfold repChar
  split_ifs with h
  · decide
  · exact h

theorem repChar_eq_slash {c : Char} (h : repChar c = '/') : c = '-' ∨ c = '/' := by
  unfold repChar at h
  split_ifs at h with hc
  · exact Or.inl hc
  · exact Or.inr h

/-! ### Lemmas about the `strip` model -/

theorem rstripRec_cons_not_space {c : Char} {l : Str} (h : isSpaceChar c = false) :
    rstripRec (c :: l) = c :: rstripRec l := by
  simp only [rstripRec]
  by_cases hr : rstripRec l = []
  · simp [hr, h]
  · simp [hr]

theorem rstripRec_sublist (l : Str) : List.Sublist (rstripRec l) l := by
  induction l with
  | nil => simp [rstripRec]
  | cons c rest ih =>
    simp only [rstripRec]
    by_cases hr : rstripRec rest = []
    · by_cases hc : isSpaceChar c
      · simp [hr, hc]
      · simp [hr, hc]
    · simpa [hr] using ih.cons₂ c

theorem rstripRec_idem (l : Str) : rstripRec (rstripRec l) = rstripRec l := by
  induction l with
  | nil => simp [rstripRec]
  | cons c rest ih =>
    by_cases hr : rstripRec rest = []
    · by_cases hc : isSpaceChar c
      · rw [show rstripRec (c :: rest) = [] by simp only [rstripRec]; simp [hr, hc]]
        simp [rstripRec]
      · rw [show rstripRec (c :: rest) = [c] by simp only [rstripRec]; simp [hr, hc]]
        simp only [rstripRec]
        simp [hc]
    · rw [show rstripRec (c :: rest) = c :: rstripRec rest by
        simp only [rstripRec]; simp [hr]]
      simp only [rstripRec]
      simp [ih, hr]

theorem rstripRec_map {f : Char → Char} (hf : ∀ c, isSpaceChar (f c) = isSpaceChar c)
    (l : Str) : rstripRec (l.map f) = (rstripRec l).map f := by
  induction l with
  | nil => simp [rstripRec]
  | cons c rest ih =>
    by_cases hr : rstripRec rest = []
    · have hmap : rstripRec (rest.map f) = [] := by rw [ih, hr]; rfl
      rw [List.map_cons]
      simp only [rstripRec]
      simp only [hmap, hr, hf c]
      by_cases hc : isSpaceChar c <;> simp [hc]
    · have hmap : rstripRec (rest.map f) ≠ [] := by
        rw [ih]
        simpa using hr
      rw [List.map_cons]
      simp only [rstripRec]
      simp [hmap, hr, ih]

theorem rstripRec_append_last {l : Str} {a : Char} (h : isSpaceChar a = false) :
    rstripRec (l ++ [a]) = l ++ [a] := by
  induction l with
  | nil => simp only [List.nil_append, rstripRec]; simp [h]
  | cons c rest ih =>
    have hne : rstripRec (rest ++ [a]) ≠ [] := by
      rw [ih]
      simp
    rw [List.cons_append]
    simp only [rstripRec]
    simp [hne, ih]

theorem pyStrip_cons_not_space {c : Char} {l : Str} (h : isSpaceChar c = false) :
    pyStrip (c :: l) = c :: rstripRec l := by
  unfold pyStrip
  rw [List.dropWhile_cons_of_neg (by simp [h]), rstripRec_cons_not_space h]

theorem dropWhile_rstripRec (l : Str) (hl : l.dropWhile isSpaceChar = l) :
    (rstripRec l).dropWhile isSpaceChar = rstripRec l := by
  cases l with
  | nil => simp [rstripRec]
  | cons c rest =>
    have hc : isSpaceChar c = false := by
      by_contra hc
      have heq : rest.dropWhile isSpaceChar = c :: rest := by
        rw [← hl]
        exact (List.dropWhile_cons_of_pos (by simpa using hc)).symm
      have hlen := (List.dropWhile_sublist (l := rest) isSpaceChar).length_le
      rw [heq] at hlen
      simp at hlen
    rw [rstripRec_cons_not_space hc]
    exact List.dropWhile_cons_of_neg (by simp [hc])

theorem pyStrip_idem (l : Str) : pyStrip (pyStrip l) = pyStrip l := by
  unfold pyStrip
  rw [dropWhile_rstripRec _ (by simp [List.dropWhile_idempotent]), rstripRec_idem]

theorem pyStrip_map {f : Char → Char} (hf : ∀ c, isSpaceChar (f c) = isSpaceChar c)
    (l : Str) : pyStrip (l.map f) = (pyStrip l).map f := by
  unfold pyStrip
  rw [List.dropWhile_map, show (isSpaceChar ∘ f) = isSpaceChar from funext hf,
    rstripRec_map hf]

theorem pyStrip_sublist (l : Str) : List.Sublist (pyStrip l) l :=
  (rstripRec_sublist _).trans (List.dropWhile_sublist _)

/-! ### Lemmas about `cleanedOf` and the split at the first separator -/

theorem takeWhile_append_all {α : Type} {p : α → Bool} {M t : List α} {a : α}
    (hM : ∀ x ∈ M, p x = true) (ha : p a = false) :
    (M ++ a :: t).takeWhile p = M := by
  induction M with
  | nil => simp [List.takeWhile_cons, ha]
  | cons x xs ih =>
    rw [List.cons_append, List.takeWhile_cons_of_pos (hM x (by simp))]
    rw [ih (fun y hy => hM y (by simp [hy]))]

theorem dropWhile_append_all {α : Type} {p : α → Bool} {M t : List α} {a : α}
    (hM : ∀ x ∈ M, p x = true) (ha : p a = false) :
    (M ++ a :: t).dropWhile p = a :: t := by
  induction M with
  | nil => simp [List.dropWhile_cons, ha]
  | cons x xs ih =>
    rw [List.cons_append, List.dropWhile_cons_of_pos (hM x (by simp))]
    exact ih (fun y hy => hM y (by simp [hy]))

theorem slash_decomp {l : Str} (h : ('/' : Char) ∈ l) :
    l.dropWhile (fun c => c ≠ '/') =
      '/' :: (l.dropWhile (fun c => c ≠ '/')).tail := by
  induction l with
  | nil => cases h
  | cons x xs ih =>
    by_cases hx : x = '/'
    · subst hx
      rw [List.dropWhile_cons_of_neg (by simp)]
      rfl
    · rw [List.dropWhile_cons_of_pos (by simp [hx])]
      exact ih ((List.mem_cons.mp h).resolve_left fun he => hx he.symm)

theorem mem_cleanedOf {raw : Str} {x : Char} (hx : x ∈ cleanedOf raw) :
    ∃ y, y ∈ raw ∧ x = Char.toUpper (repChar y) := by
  unfold cleanedOf at hx
  rcases List.mem_map.mp hx with ⟨z, hz, rfl⟩
  have hz2 : z ∈ raw.map repChar := (pyStrip_sublist _).mem hz
  rcases List.mem_map.mp hz2 with ⟨y, hy, rfl⟩
  exact ⟨y, hy, rfl⟩

theorem slash_not_mem_cleanedOf {raw : Str} (h1 : ('/' : Char) ∉ raw)
    (h2 : ('-' : Char) ∉ raw) : ('/' : Char) ∉ cleanedOf raw := by
  intro hmem
  rcases mem_cleanedOf hmem with ⟨y, hy, he⟩
  have hrep : repChar y = '/' := toUpper_eq_low (by decide) he.symm
  rcases repChar_eq_slash hrep with rfl | rfl
  · exact h2 hy
  · exact h1 hy

theorem dash_not_mem_cleanedOf (raw : Str) : ('-' : Char) ∉ cleanedOf raw := by
  intro hmem
  rcases mem_cleanedOf hmem with ⟨y, _, he⟩
  exact repChar_ne_dash y (toUpper_eq_low (by decide) he.symm)

theorem map_toUpper_cleanedOf (raw : Str) :
    (cleanedOf raw).map Char.toUpper = cleanedOf raw := by
  unfold cleanedOf
  rw [List.map_map, show (Char.toUpper ∘ Char.toUpper) = Char.toUpper from
    funext toUpper_toUpper]

theorem pyStrip_cleanedOf (raw : Str) : pyStrip (cleanedOf raw) = cleanedOf raw := by
  unfold cleanedOf
  rw [pyStrip_map isSpaceChar_toUpper, pyStrip_idem]

theorem map_repChar_cleanedOf (raw : Str) :
    (cleanedOf raw).map repChar = cleanedOf raw := by
  have : ∀ x ∈ cleanedOf raw, repChar x = id x := by
    intro x hx
    have hxd : x ≠ '-' := fun he => dash_not_mem_cleanedOf raw (he ▸ hx)
    simp [repChar, hxd]
  rw [List.map_congr_left this, List.map_id]

theorem cleanedOf_cleanedOf (raw : Str) : cleanedOf (cleanedOf raw) = cleanedOf raw := by
  conv_lhs => rw [cleanedOf]
  rw [map_repChar_cleanedOf, pyStrip_cleanedOf, map_toUpper_cleanedOf]

theorem repChar_of_sep {c : Char} (hc : c = '/' ∨ c = '-') : repChar c = '/' := by
  rcases hc with rfl | rfl <;> simp [repChar]

theorem cleanedOf_sep_head {c : Char} (hc : c = '/' ∨ c = '-') (rest : Str) :
    cleanedOf (c :: rest) = '/' :: (rstripRec (rest.map repChar)).map Char.toUpper := by
  unfold cleanedOf
  rw [List.map_cons, repChar_of_sep hc, pyStrip_cons_not_space (by decide),
    List.map_cons, show Char.toUpper '/' = '/' from by decide]

theorem parse_pair_head_sep {c : Char} (hc : c = '/' ∨ c = '-') (rest : Str) :
    parse_pair (c :: rest) = .error (.invalidPairEmptySide (c :: rest)) := by
  simp only [parse_pair]
  rw [cleanedOf_sep_head hc rest]
  rw [if_pos (show ('/' : Char) ∈ _ :: _ from List.mem_cons_self _ _)]
  rw [List.takeWhile_cons_of_neg (by simp)]
  rw [if_pos (Or.inl rfl)]

theorem parse_pair_no_sep {raw : Str} (h1 : ('/' : Char) ∉ raw)
    (h2 : ('-' : Char) ∉ raw) :
    parse_pair raw = .error (.invalidPairFormat raw) := by
  simp only [parse_pair]
  rw [if_neg (slash_not_mem_cleanedOf h1 h2)]

theorem parse_pair_trail_sep {p : Str} {s : Char} (hs : s = '/' ∨ s = '-')
    (h1 : ('/' : Char) ∉ p) (h2 : ('-' : Char) ∉ p) :
    parse_pair (p ++ [s]) = .error (.invalidPairEmptySide (p ++ [s])) := by
  have hslash : ∀ x ∈ p.map repChar, x ≠ '/' := by
    intro x hx he
    rcases List.mem_map.mp hx with ⟨y, hy, rfl⟩
    rcases repChar_eq_slash he with rfl | rfl
    · exact h2 hy
    · exact h1 hy
  have hmap : (p ++ [s]).map repChar = p.map repChar ++ ['/'] := by
    rw [List.map_append, List.map_cons, repChar_of_sep hs, List.map_nil]
  have hdrop : ∃ M, (p.map repChar ++ ['/']).dropWhile isSpaceChar = M ++ ['/'] ∧
      ∀ x ∈ M, x ∈ p.map repChar := by
    rw [List.dropWhile_append]
    by_cases hM : ((p.map repChar).dropWhile isSpaceChar).isEmpty
    · refine ⟨[], ?_, by simp⟩
      rw [if_pos hM]
      decide
    · refine ⟨(p.map repChar).dropWhile isSpaceChar, ?_, ?_⟩
      · rw [if_neg hM]
      · intro x hx
        exact (List.dropWhile_sublist _).mem hx
  obtain ⟨M, hM, hMsub⟩ := hdrop
  have hcl : cleanedOf (p ++ [s]) = M.map Char.toUpper ++ ['/'] := by
    unfold cleanedOf pyStrip
    rw [hmap, hM, rstripRec_append_last (by decide), List.map_append,
      List.map_cons, show Char.toUpper '/' = '/' from by decide, List.map_nil]
  have hMslash : ∀ x ∈ M.map Char.toUpper, (fun c => decide (c ≠ '/')) x = true := by
    intro x hx
    rcases List.mem_map.mp hx with ⟨z, hz, rfl⟩
    have hz' : z ≠ '/' := hslash z (hMsub z hz)
    simp only [decide_eq_true_eq]
    intro he
    exact hz' (toUpper_eq_low (by decide) he)
  simp only [parse_pair]
  rw [hcl]
  rw [if_pos (show ('/' : Char) ∈ _ from List.mem_append_right _ (List.mem_cons_self _ _))]
  rw [show M.map Char.toUpper ++ ['/'] = M.map Char.toUpper ++ '/' :: [] from rfl]
  rw [dropWhile_append_all hMslash (by simp)]
  simp

theorem parse_pairs_cons_error {raw : Str} {rest : List Str} {e : ScanError}
    (h : parse_pair raw = .error e) : parse_pairs (raw :: rest) = .error e := by
  rw [parse_pairs, h]
  rfl

/-- C6: `parse_pairs` maps both `EUR-USD` and `eur/usd` to the pair
`(EUR, USD)`; a raw string with no accepted separator (`/` or `-`),
e.g. `EURUSD`, fails with the invalid-pair-format error; and a raw
string whose side before the first separator is empty (it starts with a
separator) or whose side after the first separator is empty (the first
separator is its last character) fails with the empty-side validation
error.  A failing element makes `parse_pairs` fail with the same error. -/
theorem c6_pair_parser_basic :
    parse_pairs [("EUR-USD").data] = .ok [((("EUR").data), (("USD").data))]
    ∧ parse_pairs [("eur/usd").data] = .ok [((("EUR").data), (("USD").data))]
    ∧ parse_pair (("EURUSD").data) = .error (.invalidPairFormat (("EURUSD").data))
    ∧ (∀ (raw : Str) (rest : List Str) (e : ScanError), parse_pair raw = Except.error e →
        parse_pairs (raw :: rest) = Except.error e)
    ∧ (∀ raw : Str, ('/' : Char) ∉ raw → ('-' : Char) ∉ raw →
        parse_pair raw = .error (.invalidPairFormat raw))
    ∧ (∀ (c : Char) (rest : Str), c = '/' ∨ c = '-' →
        parse_pair (c :: rest) = .error (.invalidPairEmptySide (c :: rest)))
    ∧ (∀ (p : Str) (s : Char), s = '/' ∨ s = '-' → ('/' : Char) ∉ p → ('-' : Char) ∉ p →
        parse_pair (p ++ [s]) = .error (.invalidPairEmptySide (p ++ [s]))) := by
  refine ⟨by decide, by decide, by decide, ?_, ?_, ?_, ?_⟩
  · intro raw rest e h
    exact parse_pairs_cons_error h
  · intro raw h1 h2
    exact parse_pair_no_sep h1 h2
  · intro c rest hc
    exact parse_pair_head_sep hc rest
  · intro p s hs h1 h2
    exact parse_pair_trail_sep hs h1 h2

/-- C6 witness: the no-separator conjunct applied to the concrete raw
string `XAUUSD`. -/
theorem c6_pair_parser_basic_witness :
    parse_pair (("XAUUSD").data) = .error (.invalidPairFormat (("XAUUSD").data)) :=
  (c6_pair_parser_basic.2.2.2.2.1) (("XAUUSD").data) (by decide) (by decide)

/-- C9: the pair parser is idempotent — whenever `parse_pair` maps a raw
string to `(base, quote)`, parsing the canonical rendering
`base ++ "/" ++ quote` succeeds and yields the same pair. -/
theorem c9_pair_parser_idempotent :
    ∀ raw b q : Str, parse_pair raw = .ok (b, q) →
      parse_pair (b ++ '/' :: q) = .ok (b, q) := by
  intro raw b q h
  simp only [parse_pair] at h
  by_cases hmem : ('/' : Char) ∈ cleanedOf raw
  swap
  · rw [if_neg hmem] at h
    exact absurd h (by simp)
  rw [if_pos hmem] at h
  by_cases hbq : (cleanedOf raw).takeWhile (fun c => c ≠ '/') = [] ∨
      ((cleanedOf raw).dropWhile (fun c => c ≠ '/')).tail = []
  · rw [if_pos hbq] at h
    exact absurd h (by simp)
  rw [if_neg hbq] at h
  rw [Except.ok.injEq, Prod.mk.injEq] at h
  obtain ⟨hb, hq⟩ := h
  have hsplit : cleanedOf raw = b ++ '/' :: q := by
    conv_lhs => rw [← List.takeWhile_append_dropWhile (fun c => decide (c ≠ '/'))
      (cleanedOf raw)]
    rw [slash_decomp hmem, hb, hq]
  have hcl2 : cleanedOf (b ++ '/' :: q) = b ++ '/' :: q := by
    rw [← hsplit, cleanedOf_cleanedOf, hsplit]
  have hbmem : ∀ x ∈ b, decide (x ≠ '/') = true := by
    intro x hx
    rw [← hb] at hx
    exact List.mem_takeWhile_imp (p := fun c => decide (c ≠ '/')) hx
  have hbne : b ≠ [] := fun he => hbq (Or.inl (by rw [hb, he]))
  have hqne : q ≠ [] := fun he => hbq (Or.inr (by rw [hq, he]))
  simp only [parse_pair]
  rw [hcl2]
  rw [if_pos (List.mem_append_right b (List.mem_cons_self _ _))]
  rw [takeWhile_append_all hbmem (by simp), dropWhile_append_all hbmem (by simp)]
  rw [if_neg (by simp [hbne, hqne])]
  rfl

/-- C9 witness: re-parsing the canonical rendering of the parse of
`EUR-USD`. -/
theorem c9_pair_parser_idempotent_witness :
    parse_pair (("EUR").data ++ '/' :: ("USD").data) =
      .ok ((("EUR").data), (("USD").data)) :=
  c9_pair_parser_idempotent (("EUR-USD").data) (("EUR").data) (("USD").data) (by decide)

/-- C2 counterexample: on a payload whose `from-code` and `to-code` are
present, whose rate string is non-numeric, and whose `last-refreshed`
key is missing, `ExchangeRate.from_api` fails with the numeric-format
error — not with a field-missing error naming the missing required key,
because the rate value is parsed before the `last-refreshed` access. -/
theorem c2_counterexample :
    getKey c2Payload lastRefreshedKey = none
    ∧ ExchangeRate.from_api c2Payload = .error (.invalidNumeric (("abc").data))
    ∧ ScanError.isMissingFieldErr (.invalidNumeric (("abc").data)) = false :=
  ⟨by decide, by decide, by decide⟩

/-- C2 (amended): the required fields are checked in source order — the
`from-code`, `to-code` and rate keys, then the numeric parse of the
rate value, then the `last-refreshed` key — and the first failing check
determines the error: a missing key among those already reached gives a
field-missing error naming it, a present but non-numeric rate gives the
numeric-format error; when all required checks pass the record is
returned, with the bid/ask fields read leniently: a missing key, an
empty string or a non-numeric value resolve to absence, never an error. -/
theorem c2_response_parser_policy :
    (∀ p : SubPayload, getKey p fromCurrencyKey = none →
      ExchangeRate.from_api p = .error (.missingField fromCurrencyKey))
    ∧ (∀ (p : SubPayload) (a : Str), getKey p fromCurrencyKey = some a →
        getKey p toCurrencyKey = none →
        ExchangeRate.from_api p = .error (.missingField toCurrencyKey))
    ∧ (∀ (p : SubPayload) (a b : Str), getKey p fromCurrencyKey = some a →
        getKey p toCurrencyKey = some b → getKey p rateKey = none →
        ExchangeRate.from_api p = .error (.missingField rateKey))
    ∧ (∀ (p : SubPayload) (a b s : Str), getKey p fromCurrencyKey = some a →
        getKey p toCurrencyKey = some b → getKey p rateKey = some s →
        parseFloat? s = none →
        ExchangeRate.from_api p = .error (.invalidNumeric s))
    ∧ (∀ (p : SubPayload) (a b s : Str) (v : ℚ), getKey p fromCurrencyKey = some a →
        getKey p toCurrencyKey = some b → getKey p rateKey = some s →
        parseFloat? s = some v → getKey p lastRefreshedKey = none →
        ExchangeRate.from_api p = .error (.missingField lastRefreshedKey))
    ∧ (∀ (p : SubPayload) (a b s t : Str) (v : ℚ), getKey p fromCurrencyKey = some a →
        getKey p toCurrencyKey = some b → getKey p rateKey = some s →
        parseFloat? s = some v → getKey p lastRefreshedKey = some t →
        ExchangeRate.from_api p = .ok
          { from_currency := a, to_currency := b, rate := v, last_refreshed := t,
            bid_price := ExchangeRate.parse_optional_float (getKey p bidKey),
            ask_price := ExchangeRate.parse_optional_float (getKey p askKey) })
    ∧ (∀ v : Option Str,
        v = none ∨ v = some [] ∨ (∃ s, v = some s ∧ parseFloat? s = none) →
        ExchangeRate.parse_optional_float v = none) := by
  refine ⟨?_, ?_, ?_, ?_, ?_, ?_, ?_⟩
  · intro p h1
    simp [ExchangeRate.from_api, h1]
  · intro p a h1 h2
    simp [ExchangeRate.from_api, h1, h2]
  · intro p a b h1 h2 h3
    simp [ExchangeRate.from_api, h1, h2, h3]
  · intro p a b s h1 h2 h3 h4
    simp [ExchangeRate.from_api, h1, h2, h3, h4]
  · intro p a b s v h1 h2 h3 h4 h5
    simp [ExchangeRate.from_api, h1, h2, h3, h4, h5]
  · intro p a b s t v h1 h2 h3 h4 h5
    simp [ExchangeRate.from_api, h1, h2, h3, h4, h5]
  · intro v hv
    rcases hv with rfl | rfl | ⟨s, rfl, hs⟩
    · rfl
    · rfl
    · by_cases he : s = [] <;> simp [ExchangeRate.parse_optional_float, he, hs]

/-- C2 witness: the missing-rate-key conjunct applied to a concrete
payload carrying only the two currency codes. -/
theorem c2_response_parser_policy_witness :
    ExchangeRate.from_api wNoRate = .error (.missingField rateKey) :=
  (c2_response_parser_policy.2.2.1) wNoRate (("EUR").data) (("USD").data)
    (by decide) (by decide) (by decide)

/-! ### Lemmas about `from_api` successes and their provenance -/

theorem from_api_rate_parsed {p : SubPayload} {r : ExchangeRate}
    (h : ExchangeRate.from_api p = .ok r) :
    ∃ s, getKey p rateKey = some s ∧ parseFloat? s = some r.rate := by
  simp only [ExchangeRate.from_api] at h
  rcases hc1 : getKey p fromCurrencyKey with _ | a <;> rw [hc1] at h <;> dsimp only at h
  · simp at h
  rcases hc2 : getKey p toCurrencyKey with _ | b <;> rw [hc2] at h <;> dsimp only at h
  · simp at h
  rcases hc3 : getKey p rateKey with _ | s <;> rw [hc3] at h <;> dsimp only at h
  · simp at h
  rcases hc4 : parseFloat? s with _ | v <;> rw [hc4] at h <;> dsimp only at h
  · simp at h
  rcases hc5 : getKey p lastRefreshedKey with _ | t <;> rw [hc5] at h <;> dsimp only at h
  · simp at h
  rw [Except.ok.injEq] at h
  refine ⟨s, rfl, ?_⟩
  rw [← h]
  exact hc4

theorem getKey_mem {α : Type} {m : List (Str × α)} {k : Str} {v : α}
    (h : getKey m k = some v) : v ∈ m.map Prod.snd := by
  induction m with
  | nil =>
    simp only [getKey] at h
    exact Option.noConfusion h
  | cons hd tl ih =>
    obtain ⟨k₀, v₀⟩ := hd
    simp only [getKey] at h
    split_ifs at h with hk
    · rw [Option.some.injEq] at h
      subst h
      exact List.mem_cons_self _ _
    · simp only [List.map_cons, List.mem_cons]
      exact Or.inr (ih h)

theorem demo_sub_rate_pos {sub : SubPayload} (hsub : sub ∈ demo_payload.map Prod.snd)
    {r : ExchangeRate} (hfa : ExchangeRate.from_api sub = .ok r) : 0 < r.rate := by
  have hall : (demo_payload.map Prod.snd).all
      (fun sub => ratePosOk (ExchangeRate.from_api sub)) = true := by decide
  have hone := List.all_eq_true.mp hall sub hsub
  rw [hfa] at hone
  simpa [ratePosOk] using hone

theorem load_demo_data_rates_pos :
    ∀ (ps : List (Str × Str)) (rs : List ExchangeRate),
      load_demo_data ps = .ok rs → ∀ r ∈ rs, 0 < r.rate := by
  intro ps
  induction ps with
  | nil =>
    intro rs h r hr
    simp only [load_demo_data] at h
    rw [Except.ok.injEq] at h
    subst h
    cases hr
  | cons hd tl ih =>
    intro rs h r hr
    obtain ⟨b, q⟩ := hd
    simp only [load_demo_data] at h
    rcases hk : getKey demo_payload (b ++ '/' :: q) with _ | sub <;> rw [hk] at h <;>
      dsimp only at h
    · simp at h
    rcases hfa : ExchangeRate.from_api sub with e | r0 <;> rw [hfa] at h <;> dsimp only at h
    · simp at h
    rcases hrest : load_demo_data tl with e | rs0 <;> rw [hrest] at h <;> dsimp only at h
    · simp at h
    rw [Except.ok.injEq] at h
    subst h
    rcases List.mem_cons.mp hr with rfl | hr2
    · exact demo_sub_rate_pos (getKey_mem hk) hfa
    · exact ih rs0 hrest r hr2

theorem fetch_ok_from_api {outcome : HttpOutcome} {b q : Str} {r : ExchangeRate}
    (h : fetch_exchange_rate outcome b q = .ok r) :
    ∃ sub, ExchangeRate.from_api sub = .ok r := by
  cases outcome with
  | exn msg => simp [fetch_exchange_rate] at h
  | response status body =>
    simp only [fetch_exchange_rate] at h
    split_ifs at h with hst
    cases body with
    | notJson msg => simp at h
    | json payload =>
      dsimp only at h
      rcases he : payload.errorMessage with _ | m <;> rw [he] at h <;> dsimp only at h
      on_goal 2 => simp at h
      rcases hn : payload.note with _ | m <;> rw [hn] at h <;> dsimp only at h
      on_goal 2 => simp at h
      rcases hd : payload.realtime with _ | sub <;> rw [hd] at h <;> dsimp only at h
      on_goal 1 => simp at h
      rcases hfa : ExchangeRate.from_api sub with e | r0 <;> rw [hfa] at h <;> dsimp only at h
      · simp at h
      · rw [Except.ok.injEq] at h
        subst h
        exact ⟨sub, hfa⟩

theorem retryLoop_ok_fetch {oracle : Nat → HttpOutcome} {idx : Nat} {b q : Str}
    {d : ℚ} {r : ExchangeRate} :
    ∀ {fuel att : Nat}, (retryLoop oracle idx b q d fuel att).2 = .ok r →
      ∃ n, fetch_exchange_rate (oracle n) b q = .ok r := by
  intro fuel
  induction fuel with
  | zero =>
    intro att h
    unfold retryLoop at h
    rcases hf : fetch_exchange_rate (oracle att) b q with e | r0 <;> rw [hf] at h
    · cases e <;> simp at h
    · simp at h
      subst h
      exact ⟨att, hf⟩
  | succ f ih =>
    intro att h
    unfold retryLoop at h
    rcases hf : fetch_exchange_rate (oracle att) b q with e | r0 <;> rw [hf] at h
    · cases e with
      | domain e0 =>
        dsimp only at h
        exact ih h
      | raw m => simp at h
    · simp at h
      subst h
      exact ⟨att, hf⟩

theorem scanPairs_ok_mem {provider : Nat → Nat → HttpOutcome} {retry : Nat} {d : ℚ} :
    ∀ {ps : List (Str × Str)} {i : Nat} {rs : List ExchangeRate},
      (scanPairs provider retry d i ps).2 = .ok rs →
      ∀ r ∈ rs, ∃ sub, ExchangeRate.from_api sub = .ok r := by
  intro ps
  induction ps with
  | nil =>
    intro i rs h r hr
    simp only [scanPairs] at h
    rw [Except.ok.injEq] at h
    subst h
    cases hr
  | cons hd tl ih =>
    intro i rs h r hr
    obtain ⟨b, q⟩ := hd
    simp only [scanPairs] at h
    rcases hf : (retryLoop (provider i) i b q d retry 0).2 with e | r0 <;> rw [hf] at h <;>
      dsimp only at h
    · simp at h
    rcases ho : (scanPairs provider retry d (i + 1) tl).2 with e | rs0 <;> rw [ho] at h <;>
      dsimp only at h
    · simp at h
    rw [Except.ok.injEq] at h
    subst h
    rcases List.mem_cons.mp hr with rfl | hr2
    · obtain ⟨n, hn⟩ := retryLoop_ok_fetch hf
      exact fetch_ok_from_api hn
    · exact ih ho r hr2

/-- C7 counterexample: `from_api` enforces no positivity — a payload whose
rate string is `-1` parses successfully into a record with a negative
rate. -/
theorem c7_counterexample :
    (ExchangeRate.from_api c7Payload).toOption.map ExchangeRate.rate =
      some (Rat.divInt (-1) 1)
    ∧ ¬(0 < Rat.divInt (-1) 1) :=
  ⟨by decide, by decide⟩

/-- C7 (amended): every record produced by `ExchangeRate.from_api` has its
rate present and numeric — it is exactly the number parsed from the
payload's rate string — and every record returned by `run_scanner` arises
from such a successful parse; strict positivity is not enforced by the
parser, but every record produced by the demo lookup does have a strictly
positive rate. -/
theorem c7_rate_present_numeric :
    (∀ (p : SubPayload) (r : ExchangeRate), ExchangeRate.from_api p = .ok r →
      ∃ s, getKey p rateKey = some s ∧ parseFloat? s = some r.rate)
    ∧ (∀ (provider : Nat → Nat → HttpOutcome) (pairs : List (Str × Str))
        (api_key : Option Str) (retry : Nat) (d : ℚ) (rs : List ExchangeRate),
        (run_scanner provider pairs api_key retry d).2 = .ok rs →
        ∀ r ∈ rs, ∃ sub, ExchangeRate.from_api sub = .ok r)
    ∧ (∀ (ps : List (Str × Str)) (rs : List ExchangeRate),
        load_demo_data ps = .ok rs → ∀ r ∈ rs, 0 < r.rate) := by
  refine ⟨?_, ?_, load_demo_data_rates_pos⟩
  · intro p r h
    exact from_api_rate_parsed h
  · intro provider pairs api_key retry d rs h r hr
    rcases api_key with _ | k
    · rw [show run_scanner provider pairs none retry d =
        ([], .error (.domain .missingApiKey)) from rfl] at h
      simp at h
    · rw [show run_scanner provider pairs (some k) retry d =
        if k = [] then ([], .error (.domain .missingApiKey))
        else scanPairs provider retry d 0 pairs from rfl] at h
      split_ifs at h with hk
      exact scanPairs_ok_mem h r hr

/-- C7 witness: the rate of the record parsed from the fixture payload
`wSub` is the number parsed from its rate string. -/
theorem c7_rate_present_numeric_witness :
    ∃ s, getKey wSub rateKey = some s ∧
      parseFloat? s = some (Rat.divInt 15 10) := by
  have h := c7_rate_present_numeric.1 wSub
    { from_currency := ("EUR").data, to_currency := ("USD").data,
      rate := Rat.divInt 15 10, last_refreshed := ("t").data,
      bid_price := none, ask_price := none }
    (by decide)
  simpa using h

/-- C4: with a falsy credential (`None` or the empty string) `run_scanner`
fails with the missing-credential error immediately, for every pairs list,
retry budget and delay — the trace is empty, so no provider call is ever
made. -/
theorem c4_missing_credential :
    ∀ (provider : Nat → Nat → HttpOutcome) (pairs : List (Str × Str))
      (retry : Nat) (d : ℚ),
      run_scanner provider pairs none retry d =
        ([], .error (.domain .missingApiKey))
      ∧ run_scanner provider pairs (some []) retry d =
        ([], .error (.domain .missingApiKey)) := by
  intro provider pairs retry d
  exact ⟨rfl, rfl⟩

theorem from_api_error_shape {p : SubPayload} {e : ScanError}
    (h : ExchangeRate.from_api p = .error e) :
    (∃ f, e = .missingField f) ∨ (∃ s, e = .invalidNumeric s) := by
  simp only [ExchangeRate.from_api] at h
  rcases hc1 : getKey p fromCurrencyKey with _ | a <;> rw [hc1] at h <;> dsimp only at h
  · rw [Except.error.injEq] at h
    exact Or.inl ⟨_, h.symm⟩
  rcases hc2 : getKey p toCurrencyKey with _ | b <;> rw [hc2] at h <;> dsimp only at h
  · rw [Except.error.injEq] at h
    exact Or.inl ⟨_, h.symm⟩
  rcases hc3 : getKey p rateKey with _ | s <;> rw [hc3] at h <;> dsimp only at h
  · rw [Except.error.injEq] at h
    exact Or.inl ⟨_, h.symm⟩
  rcases hc4 : parseFloat? s with _ | v <;> rw [hc4] at h <;> dsimp only at h
  · rw [Except.error.injEq] at h
    exact Or.inr ⟨_, h.symm⟩
  rcases hc5 : getKey p lastRefreshedKey with _ | t <;> rw [hc5] at h <;> dsimp only at h
  · rw [Except.error.injEq] at h
    exact Or.inl ⟨_, h.symm⟩
  simp at h

/-- C5 counterexample: a success-status response whose body does not
decode as JSON makes `fetch_exchange_rate` surface the raw JSON decode
exception (`response.json()` sits outside the try block), not a named
domain error — refuting the claim that every failure reaches the caller
as a domain error and that raw exceptions are never surfaced. -/
theorem c5_counterexample :
    fetch_exchange_rate c5Outcome (("EUR").data) (("USD").data) =
      .error (.raw (("surprise html body").data))
    ∧ FetchError.isDomainErr (.raw (("surprise html body").data)) = false :=
  ⟨by decide, by decide⟩

/-- C5 (amended): for responses whose body decodes as JSON,
`fetch_exchange_rate` classifies in exactly the claimed priority order —
transport exception or 4xx/5xx status → network/status error, then
provider error message, then rate-limit notice, then missing result key,
then the parsed subtree — and every classification error carries the
offending pair (payload parse failures propagate as the field errors of
the response parser); but a success-status response with a non-JSON body
surfaces the raw decode exception. -/
theorem c5_fetch_classification :
    (∀ b q msg : Str, fetch_exchange_rate (.exn msg) b q =
        .error (.domain (.networkError b q msg)))
    ∧ (∀ (b q : Str) (status : Nat) (body : Body), 400 ≤ status → status < 600 →
        fetch_exchange_rate (.response status body) b q =
          .error (.domain (.networkError b q (Nat.toDigits 10 status))))
    ∧ (∀ (b q : Str) (status : Nat) (p : ApiPayload) (m : Str),
        ¬(400 ≤ status ∧ status < 600) → p.errorMessage = some m →
        fetch_exchange_rate (.response status (.json p)) b q =
          .error (.domain (.apiError b q m)))
    ∧ (∀ (b q : Str) (status : Nat) (p : ApiPayload) (m : Str),
        ¬(400 ≤ status ∧ status < 600) → p.errorMessage = none → p.note = some m →
        fetch_exchange_rate (.response status (.json p)) b q =
          .error (.domain (.apiLimit b q m)))
    ∧ (∀ (b q : Str) (status : Nat) (p : ApiPayload),
        ¬(400 ≤ status ∧ status < 600) → p.errorMessage = none → p.note = none →
        p.realtime = none →
        fetch_exchange_rate (.response status (.json p)) b q =
          .error (.domain (.unexpectedSchema b q)))
    ∧ (∀ (b q : Str) (status : Nat) (p : ApiPayload) (sub : SubPayload),
        ¬(400 ≤ status ∧ status < 600) → p.errorMessage = none → p.note = none →
        p.realtime = some sub →
        fetch_exchange_rate (.response status (.json p)) b q =
          (match ExchangeRate.from_api sub with
            | .ok r => .ok r
            | .error e => .error (.domain e)))
    ∧ (∀ (b q : Str) (status : Nat) (msg : Str), ¬(400 ≤ status ∧ status < 600) →
        fetch_exchange_rate (.response status (.notJson msg)) b q = .error (.raw msg))
    ∧ (∀ (outcome : HttpOutcome) (b q : Str) (e : ScanError),
        fetch_exchange_rate outcome b q = .error (.domain e) →
        ScanError.pairOf e = some (b, q) ∨ (∃ f, e = .missingField f) ∨
          (∃ s, e = .invalidNumeric s)) := by
  refine ⟨fun b q msg => rfl, ?_, ?_, ?_, ?_, ?_, ?_, ?_⟩
  · intro b q status body h1 h2
    simp only [fetch_exchange_rate]
    rw [if_pos ⟨h1, h2⟩]
  · intro b q status p m hst he
    simp only [fetch_exchange_rate]
    rw [if_neg hst, he]
  · intro b q status p m hst he hn
    simp only [fetch_exchange_rate]
    rw [if_neg hst, he, hn]
  · intro b q status p hst he hn hd
    simp only [fetch_exchange_rate]
    rw [if_neg hst, he, hn, hd]
  · intro b q status p sub hst he hn hd
    simp only [fetch_exchange_rate]
    rw [if_neg hst, he, hn, hd]
    dsimp only
    rcases ExchangeRate.from_api sub with e | r0 <;> rfl
  · intro b q status msg hst
    simp only [fetch_exchange_rate]
    rw [if_neg hst]
  · intro outcome b q e h
    cases outcome with
    | exn msg =>
      simp only [fetch_exchange_rate] at h
      rw [Except.error.injEq, FetchError.domain.injEq] at h
      rw [← h]
      exact Or.inl rfl
    | response status body =>
      simp only [fetch_exchange_rate] at h
      split_ifs at h with hst
      · rw [Except.error.injEq, FetchError.domain.injEq] at h
        rw [← h]
        exact Or.inl rfl
      cases body with
      | notJson msg => simp at h
      | json p =>
        dsimp only at h
        rcases he : p.errorMessage with _ | m <;> rw [he] at h <;> dsimp only at h
        on_goal 2 =>
          rw [Except.error.injEq, FetchError.domain.injEq] at h
          rw [← h]
          exact Or.inl rfl
        rcases hn : p.note with _ | m <;> rw [hn] at h <;> dsimp only at h
        on_goal 2 =>
          rw [Except.error.injEq, FetchError.domain.injEq] at h
          rw [← h]
          exact Or.inl rfl
        rcases hd : p.realtime with _ | sub <;> rw [hd] at h <;> dsimp only at h
        on_goal 1 =>
          rw [Except.error.injEq, FetchError.domain.injEq] at h
          rw [← h]
          exact Or.inl rfl
        rcases hfa : ExchangeRate.from_api sub with e0 | r0 <;> rw [hfa] at h <;>
          dsimp only at h
        · rw [Except.error.injEq, FetchError.domain.injEq] at h
          rw [← h]
          exact Or.inr (from_api_error_shape hfa)
        · simp at h

/-- C5 witness: the provider-error conjunct applied to the fixture
payload carrying an error message (and a notice of lower priority). -/
theorem c5_fetch_classification_witness :
    fetch_exchange_rate (.response 200 (.json wErrPayload)) (("EUR").data) (("USD").data) =
      .error (.domain (.apiError (("EUR").data) (("USD").data)
        (("Invalid API call").data))) :=
  (c5_fetch_classification.2.2.1) (("EUR").data) (("USD").data) 200 wErrPayload
    (("Invalid API call").data) (by decide) (by decide)

/-! ### Equations and trace lemmas for the retry loop and the pair scan -/

theorem retryLoop_zero (oracle : Nat → HttpOutcome) (idx : Nat) (b q : Str)
    (d : ℚ) (att : Nat) :
    retryLoop oracle idx b q d 0 att =
      ([.fetchAttempt idx b q], fetch_exchange_rate (oracle att) b q) := by
  unfold retryLoop
  rcases h : fetch_exchange_rate (oracle att) b q with e | r0
  · cases e <;> rfl
  · rfl

theorem retryLoop_ok {oracle : Nat → HttpOutcome} {idx : Nat} {b q : Str}
    {d : ℚ} {att : Nat} {r : ExchangeRate} (fuel : Nat)
    (h : fetch_exchange_rate (oracle att) b q = .ok r) :
    retryLoop oracle idx b q d fuel att = ([.fetchAttempt idx b q], .ok r) := by
  cases fuel <;> (unfold retryLoop; rw [h])

theorem retryLoop_raw {oracle : Nat → HttpOutcome} {idx : Nat} {b q : Str}
    {d : ℚ} {att : Nat} {m : Str} (fuel : Nat)
    (h : fetch_exchange_rate (oracle att) b q = .error (.raw m)) :
    retryLoop oracle idx b q d fuel att =
      ([.fetchAttempt idx b q], .error (.raw m)) := by
  cases fuel <;> (unfold retryLoop; rw [h])

theorem retryLoop_domain_succ {oracle : Nat → HttpOutcome} {idx : Nat} {b q : Str}
    {d : ℚ} {att : Nat} {e : ScanError} (f : Nat)
    (h : fetch_exchange_rate (oracle att) b q = .error (.domain e)) :
    retryLoop oracle idx b q d (f + 1) att =
      (.fetchAttempt idx b q :: .sleep d :: (retryLoop oracle idx b q d f (att + 1)).1,
        (retryLoop oracle idx b q d f (att + 1)).2) := by
  conv_lhs => unfold retryLoop
  rw [h]

theorem retryLoop_events {oracle : Nat → HttpOutcome} {idx : Nat} {b q : Str}
    {d : ℚ} : ∀ (fuel att : Nat) (e : Event),
    e ∈ (retryLoop oracle idx b q d fuel att).1 →
    e = .fetchAttempt idx b q ∨ e = .sleep d := by
  intro fuel
  induction fuel with
  | zero =>
    intro att e he
    rw [retryLoop_zero] at he
    simp at he
    exact Or.inl he
  | succ f ih =>
    intro att e he
    rcases hf : fetch_exchange_rate (oracle att) b q with er | r0
    · cases er with
      | domain e0 =>
        rw [retryLoop_domain_succ f hf] at he
        rcases List.mem_cons.mp he with rfl | he2
        · exact Or.inl rfl
        rcases List.mem_cons.mp he2 with rfl | he3
        · exact Or.inr rfl
        · exact ih (att + 1) e he3
      | raw m =>
        rw [retryLoop_raw (f + 1) hf] at he
        simp at he
        exact Or.inl he
    · rw [retryLoop_ok (f + 1) hf] at he
      simp at he
      exact Or.inl he

theorem retryLoop_count {oracle : Nat → HttpOutcome} {idx : Nat} {b q : Str}
    {d : ℚ} {j : Nat} : ∀ fuel att : Nat,
    ((retryLoop oracle idx b q d fuel att).1.countP (isAttemptAt j)) ≤ fuel + 1 := by
  intro fuel
  induction fuel with
  | zero =>
    intro att
    rw [retryLoop_zero]
    simp [List.countP_cons]
    split <;> simp
  | succ f ih =>
    intro att
    rcases hf : fetch_exchange_rate (oracle att) b q with er | r0
    · cases er with
      | domain e0 =>
        rw [retryLoop_domain_succ f hf]
        rw [List.countP_cons, List.countP_cons,
          show isAttemptAt j (Event.sleep d) = false from rfl,
          if_neg (by decide)]
        have := ih (att + 1)
        split <;> omega
      | raw m =>
        rw [retryLoop_raw (f + 1) hf]
        simp [List.countP_cons]
        split <;> omega
    · rw [retryLoop_ok (f + 1) hf]
      simp [List.countP_cons]
      split <;> omega

theorem scanPairs_events {provider : Nat → Nat → HttpOutcome} {retry : Nat} {d : ℚ} :
    ∀ (ps : List (Str × Str)) (i : Nat) (e : Event),
      e ∈ (scanPairs provider retry d i ps).1 →
      (∃ j b q, e = .fetchAttempt j b q ∧ i ≤ j) ∨ e = .sleep d := by
  intro ps
  induction ps with
  | nil =>
    intro i e he
    simp [scanPairs] at he
  | cons hd tl ih =>
    intro i e he
    obtain ⟨b, q⟩ := hd
    simp only [scanPairs] at he
    rcases hf : (retryLoop (provider i) i b q d retry 0).2 with e0 | r0 <;> rw [hf] at he <;>
      dsimp only at he
    · rcases retryLoop_events retry 0 e he with rfl | rfl
      · exact Or.inl ⟨i, b, q, rfl, le_refl i⟩
      · exact Or.inr rfl
    · rcases List.mem_append.mp he with he1 | he2
      · rcases retryLoop_events retry 0 e he1 with rfl | rfl
        · exact Or.inl ⟨i, b, q, rfl, le_refl i⟩
        · exact Or.inr rfl
      · rcases ih (i + 1) e he2 with ⟨j, b2, q2, rfl, hj⟩ | rfl
        · exact Or.inl ⟨j, b2, q2, rfl, by omega⟩
        · exact Or.inr rfl

theorem scanPairs_count {provider : Nat → Nat → HttpOutcome} {retry : Nat} {d : ℚ} :
    ∀ (ps : List (Str × Str)) (i j : Nat),
      ((scanPairs provider retry d i ps).1.countP (isAttemptAt j)) ≤ retry + 1 := by
  intro ps
  induction ps with
  | nil =>
    intro i j
    simp [scanPairs]
  | cons hd tl ih =>
    intro i j
    obtain ⟨b, q⟩ := hd
    simp only [scanPairs]
    rcases hf : (retryLoop (provider i) i b q d retry 0).2 with e0 | r0 <;> dsimp only
    · exact retryLoop_count retry 0
    · rw [List.countP_append]
      by_cases hj : j = i
      · rw [hj]
        have h2 : ((scanPairs provider retry d (i + 1) tl).1.countP (isAttemptAt i)) = 0 := by
          rw [List.countP_eq_zero]
          intro e he
          rcases scanPairs_events tl (i + 1) e he with ⟨j2, b2, q2, rfl, hj2⟩ | rfl
          · simp [isAttemptAt]
            omega
          · simp [isAttemptAt]
        have h1 := @retryLoop_count (provider i) i b q d i retry 0
        omega
      · have h1 : ((retryLoop (provider i) i b q d retry 0).1.countP (isAttemptAt j)) = 0 := by
          rw [List.countP_eq_zero]
          intro e he
          rcases retryLoop_events retry 0 e he with rfl | rfl
          · simp [isAttemptAt]
            omega
          · simp [isAttemptAt]
        have h2 := ih (i + 1) j
        omega

theorem scanPairs_no_sleep_zero {provider : Nat → Nat → HttpOutcome} {d : ℚ} :
    ∀ (ps : List (Str × Str)) (i : Nat) (x : ℚ),
      Event.sleep x ∉ (scanPairs provider 0 d i ps).1 := by
  intro ps
  induction ps with
  | nil =>
    intro i x h
    simp [scanPairs] at h
  | cons hd tl ih =>
    intro i x h
    obtain ⟨b, q⟩ := hd
    simp only [scanPairs] at h
    rw [retryLoop_zero] at h
    rcases hf : fetch_exchange_rate (provider i 0) b q with e | r0 <;> rw [hf] at h <;>
      simp at h
    exact ih (i + 1) x h

theorem run_scanner_sleep_eq {provider : Nat → Nat → HttpOutcome}
    {pairs : List (Str × Str)} {api_key : Option Str} {retry : Nat} {d x : ℚ}
    (h : Event.sleep x ∈ (run_scanner provider pairs api_key retry d).1) : x = d := by
  rcases api_key with _ | k
  · rw [show run_scanner provider pairs none retry d =
      ([], .error (.domain .missingApiKey)) from rfl] at h
    simp at h
  · rw [show run_scanner provider pairs (some k) retry d =
      if k = [] then ([], .error (.domain .missingApiKey))
      else scanPairs provider retry d 0 pairs from rfl] at h
    split_ifs at h with hk
    · simp at h
    · rcases scanPairs_events pairs 0 _ h with ⟨j, b2, q2, heq, _⟩ | heq
      · exact absurd heq (by simp)
      · rw [Event.sleep.injEq] at heq
        exact heq

/-- C3: for every pair position, `run_scanner` performs at most
`retry + 1` provider calls; with budget 0 the loop is one provider call
whose result is propagated as is (and a budget-0 run never sleeps); and
with budget 2 against an oracle failing twice and then succeeding, the
loop returns the record after exactly three calls separated by exactly
two delays. -/
theorem c3_retry_budget :
    (∀ (provider : Nat → Nat → HttpOutcome) (pairs : List (Str × Str))
        (api_key : Option Str) (retry : Nat) (d : ℚ) (j : Nat),
        ((run_scanner provider pairs api_key retry d).1.countP (isAttemptAt j)) ≤ retry + 1)
    ∧ (∀ (oracle : Nat → HttpOutcome) (idx : Nat) (b q : Str) (d : ℚ),
        retryLoop oracle idx b q d 0 0 =
          ([.fetchAttempt idx b q], fetch_exchange_rate (oracle 0) b q))
    ∧ (∀ (provider : Nat → Nat → HttpOutcome) (pairs : List (Str × Str))
        (api_key : Option Str) (d x : ℚ),
        Event.sleep x ∉ (run_scanner provider pairs api_key 0 d).1)
    ∧ (∀ (oracle : Nat → HttpOutcome) (idx : Nat) (b q : Str) (d : ℚ)
        (e0 e1 : ScanError) (r : ExchangeRate),
        fetch_exchange_rate (oracle 0) b q = .error (.domain e0) →
        fetch_exchange_rate (oracle 1) b q = .error (.domain e1) →
        fetch_exchange_rate (oracle 2) b q = .ok r →
        retryLoop oracle idx b q d 2 0 =
          ([.fetchAttempt idx b q, .sleep d, .fetchAttempt idx b q, .sleep d,
            .fetchAttempt idx b q], .ok r)) := by
  refine ⟨?_, fun oracle idx b q d => retryLoop_zero oracle idx b q d 0, ?_, ?_⟩
  · intro provider pairs api_key retry d j
    rcases api_key with _ | k
    · rw [show run_scanner provider pairs none retry d =
        ([], .error (.domain .missingApiKey)) from rfl]
      simp
    · rw [show run_scanner provider pairs (some k) retry d =
        if k = [] then ([], .error (.domain .missingApiKey))
        else scanPairs provider retry d 0 pairs from rfl]
      split_ifs with hk
      · simp
      · exact scanPairs_count pairs 0 j
  · intro provider pairs api_key d x
    rcases api_key with _ | k
    · rw [show run_scanner provider pairs none 0 d =
        ([], .error (.domain .missingApiKey)) from rfl]
      simp
    · rw [show run_scanner provider pairs (some k) 0 d =
        if k = [] then ([], .error (.domain .missingApiKey))
        else scanPairs provider 0 d 0 pairs from rfl]
      split_ifs with hk
      · simp
      · exact scanPairs_no_sleep_zero pairs 0 x
  · intro oracle idx b q d e0 e1 r h0 h1 h2
    rw [show retryLoop oracle idx b q d 2 0 =
      (.fetchAttempt idx b q :: .sleep d :: (retryLoop oracle idx b q d 1 1).1,
        (retryLoop oracle idx b q d 1 1).2) from retryLoop_domain_succ 1 h0]
    rw [show retryLoop oracle idx b q d 1 1 =
      (.fetchAttempt idx b q :: .sleep d :: (retryLoop oracle idx b q d 0 2).1,
        (retryLoop oracle idx b q d 0 2).2) from retryLoop_domain_succ 0 h1]
    rw [retryLoop_zero, h2]

/-- C3 witness: the budget-2 scenario at the fixture oracle that fails
twice and then succeeds. -/
theorem c3_retry_budget_witness :
    retryLoop wOracle 0 (("EUR").data) (("USD").data) (5 : ℚ) 2 0 =
      ([.fetchAttempt 0 (("EUR").data) (("USD").data), .sleep 5,
        .fetchAttempt 0 (("EUR").data) (("USD").data), .sleep 5,
        .fetchAttempt 0 (("EUR").data) (("USD").data)],
        .ok { from_currency := ("EUR").data, to_currency := ("USD").data,
              rate := Rat.divInt 15 10, last_refreshed := ("t").data,
              bid_price := none, ask_price := none }) :=
  (c3_retry_budget.2.2.2) wOracle 0 (("EUR").data) (("USD").data) 5
    (.networkError (("EUR").data) (("USD").data) (("boom").data))
    (.networkError (("EUR").data) (("USD").data) (("boom").data))
    _ (by decide) (by decide) (by decide)

theorem retryLoop_all_fail {oracle : Nat → HttpOutcome} {idx : Nat} {b q : Str}
    {d : ℚ} : ∀ (fuel att : Nat),
    (∀ j, att ≤ j → j ≤ att + fuel →
      ∃ e, fetch_exchange_rate (oracle j) b q = .error (.domain e)) →
    ∃ e, fetch_exchange_rate (oracle (att + fuel)) b q = .error (.domain e) ∧
      (retryLoop oracle idx b q d fuel att).2 = .error (.domain e) := by
  intro fuel
  induction fuel with
  | zero =>
    intro att hall
    obtain ⟨e, he⟩ := hall att (le_refl att) (by omega)
    refine ⟨e, by simpa using he, ?_⟩
    rw [retryLoop_zero]
    simpa using he
  | succ f ih =>
    intro att hall
    obtain ⟨e0, he0⟩ := hall att (le_refl att) (by omega)
    obtain ⟨e, he, hloop⟩ := ih (att + 1)
      (fun j hj1 hj2 => hall j (by omega) (by omega))
    refine ⟨e, ?_, ?_⟩
    · have heq : att + 1 + f = att + (f + 1) := by omega
      rw [heq] at he
      exact he
    · rw [retryLoop_domain_succ f he0]
      exact hloop

theorem scanPairs_abort {provider : Nat → Nat → HttpOutcome} {retry : Nat} {d : ℚ} :
    ∀ (ps : List (Str × Str)) (i0 k : Nat) (b q : Str) (err : FetchError),
      ps.get? k = some (b, q) →
      (∀ (k2 : Nat) (b2 q2 : Str), k2 < k → ps.get? k2 = some (b2, q2) →
        ∃ r, (retryLoop (provider (i0 + k2)) (i0 + k2) b2 q2 d retry 0).2 = .ok r) →
      (retryLoop (provider (i0 + k)) (i0 + k) b q d retry 0).2 = .error err →
      (scanPairs provider retry d i0 ps).2 = .error err
      ∧ (∀ (j : Nat) (b2 q2 : Str),
          Event.fetchAttempt j b2 q2 ∈ (scanPairs provider retry d i0 ps).1 →
          j ≤ i0 + k) := by
  intro ps
  induction ps with
  | nil =>
    intro i0 k b q err hget _ _
    simp at hget
  | cons hd tl ih =>
    intro i0 k b q err hget hprev herr
    obtain ⟨b0, q0⟩ := hd
    cases k with
    | zero =>
      have hget0 : (b0, q0) = (b, q) := by simpa using hget
      rw [Prod.mk.injEq] at hget0
      obtain ⟨rfl, rfl⟩ := hget0
      simp only [Nat.add_zero] at herr ⊢
      constructor
      · simp only [scanPairs]
        rw [herr]
      · intro j b2 q2 hmem
        simp only [scanPairs] at hmem
        rw [herr] at hmem
        dsimp only at hmem
        rcases retryLoop_events retry 0 _ hmem with heq | heq
        · rw [Event.fetchAttempt.injEq] at heq
          omega
        · exact absurd heq (by simp)
    | succ k2 =>
      obtain ⟨r0, hr0⟩ := hprev 0 b0 q0 (Nat.succ_pos k2) rfl
      simp only [Nat.add_zero] at hr0
      have hget2 : tl.get? k2 = some (b, q) := hget
      have hshift : i0 + (k2 + 1) = i0 + 1 + k2 := by omega
      have hprev2 : ∀ (k3 : Nat) (b2 q2 : Str), k3 < k2 → tl.get? k3 = some (b2, q2) →
          ∃ r, (retryLoop (provider (i0 + 1 + k3)) (i0 + 1 + k3) b2 q2 d retry 0).2 =
            .ok r := by
        intro k3 b2 q2 hk3 hg
        have hidx : i0 + (k3 + 1) = i0 + 1 + k3 := by omega
        have := hprev (k3 + 1) b2 q2 (by omega) hg
        rw [hidx] at this
        exact this
      have herr2 :
          (retryLoop (provider (i0 + 1 + k2)) (i0 + 1 + k2) b q d retry 0).2 =
            .error err := by
        rw [← hshift]
        exact herr
      obtain ⟨hres, hidx⟩ := ih (i0 + 1) k2 b q err hget2 hprev2 herr2
      rw [hshift]
      constructor
      · simp only [scanPairs]
        rw [hr0]
        dsimp only
        rw [hres]
      · intro j b2 q2 hmem
        simp only [scanPairs] at hmem
        rw [hr0] at hmem
        dsimp only at hmem
        rcases List.mem_append.mp hmem with h1 | h2
        · rcases retryLoop_events retry 0 _ h1 with heq | heq
          · rw [Event.fetchAttempt.injEq] at heq
            omega
          · exact absurd heq (by simp)
        · have := hidx j b2 q2 h2
          omega

theorem scanPairs_all_ok {provider : Nat → Nat → HttpOutcome} {retry : Nat} {d : ℚ} :
    ∀ (ps : List (Str × Str)) (i0 : Nat),
      (∀ (k : Nat) (b q : Str), ps.get? k = some (b, q) →
        ∃ r, (retryLoop (provider (i0 + k)) (i0 + k) b q d retry 0).2 = .ok r) →
      ∃ rs, (scanPairs provider retry d i0 ps).2 = .ok rs ∧ rs.length = ps.length ∧
        ∀ (k : Nat) (b q : Str), ps.get? k = some (b, q) →
          ∃ r, (retryLoop (provider (i0 + k)) (i0 + k) b q d retry 0).2 = .ok r ∧
            rs.get? k = some r := by
  intro ps
  induction ps with
  | nil =>
    intro i0 _
    refine ⟨[], by simp [scanPairs], rfl, ?_⟩
    intro k b q hg
    simp at hg
  | cons hd tl ih =>
    intro i0 hall
    obtain ⟨b0, q0⟩ := hd
    obtain ⟨r0, hr0⟩ := hall 0 b0 q0 rfl
    simp only [Nat.add_zero] at hr0
    have hall2 : ∀ (k : Nat) (b q : Str), tl.get? k = some (b, q) →
        ∃ r, (retryLoop (provider (i0 + 1 + k)) (i0 + 1 + k) b q d retry 0).2 = .ok r := by
      intro k b q hg
      have hidx : i0 + (k + 1) = i0 + 1 + k := by omega
      have := hall (k + 1) b q hg
      rw [hidx] at this
      exact this
    obtain ⟨rs0, hok, hlen, hpt⟩ := ih (i0 + 1) hall2
    refine ⟨r0 :: rs0, ?_, by simpa using hlen, ?_⟩
    · simp only [scanPairs]
      rw [hr0]
      dsimp only
      rw [hok]
    · intro k b q hg
      cases k with
      | zero =>
        have hg0 : (b0, q0) = (b, q) := by simpa using hg
        rw [Prod.mk.injEq] at hg0
        obtain ⟨rfl, rfl⟩ := hg0
        exact ⟨r0, by simpa using hr0, rfl⟩
      | succ k2 =>
        have hg2 : tl.get? k2 = some (b, q) := hg
        obtain ⟨r, hr, hrs⟩ := hpt k2 b q hg2
        have hidx : i0 + (k2 + 1) = i0 + 1 + k2 := by omega
        rw [hidx]
        exact ⟨r, hr, hrs⟩

/-- C1: with a valid credential, if every pair before position `i`
succeeds within its budget and the pair at position `i` fails on all of
its `retry + 1` attempts, then `run_scanner` propagates that pair's last
error — no result list is returned — and no pair after position `i` is
ever attempted; and when every pair's retry loop succeeds the returned
list has exactly one record per pair, in input order. -/
theorem c1_batch_abort_and_order :
    ∀ (provider : Nat → Nat → HttpOutcome) (pairs : List (Str × Str)) (k : Str)
      (retry : Nat) (d : ℚ), k ≠ [] →
      (∀ (i : Nat) (b q : Str), pairs.get? i = some (b, q) →
        (∀ (i2 : Nat) (b2 q2 : Str), i2 < i → pairs.get? i2 = some (b2, q2) →
          ∃ r, (retryLoop (provider i2) i2 b2 q2 d retry 0).2 = .ok r) →
        (∀ j : Nat, j ≤ retry →
          ∃ e, fetch_exchange_rate (provider i j) b q = .error (.domain e)) →
        ∃ e, fetch_exchange_rate (provider i retry) b q = .error (.domain e) ∧
          (run_scanner provider pairs (some k) retry d).2 = .error (.domain e) ∧
          ∀ (j : Nat) (b2 q2 : Str),
            Event.fetchAttempt j b2 q2 ∈ (run_scanner provider pairs (some k) retry d).1 →
            j ≤ i)
      ∧ ((∀ (i : Nat) (b q : Str), pairs.get? i = some (b, q) →
            ∃ r, (retryLoop (provider i) i b q d retry 0).2 = .ok r) →
          ∃ rs, (run_scanner provider pairs (some k) retry d).2 = .ok rs ∧
            rs.length = pairs.length ∧
            ∀ (i : Nat) (b q : Str), pairs.get? i = some (b, q) →
              ∃ r, (retryLoop (provider i) i b q d retry 0).2 = .ok r ∧
                rs.get? i = some r) := by
  intro provider pairs k retry d hk
  have hrun : run_scanner provider pairs (some k) retry d =
      scanPairs provider retry d 0 pairs := by
    rw [show run_scanner provider pairs (some k) retry d =
      if k = [] then ([], .error (.domain .missingApiKey))
      else scanPairs provider retry d 0 pairs from rfl, if_neg hk]
  constructor
  · intro i b q hget hprev hfails
    obtain ⟨e, hfe, hloop⟩ :=
      @retryLoop_all_fail (provider i) i b q d
        retry 0 (fun j hj1 hj2 => hfails j (by omega))
    rw [show (0 : Nat) + retry = retry from by omega] at hfe
    have hprev0 : ∀ (k2 : Nat) (b2 q2 : Str), k2 < i → pairs.get? k2 = some (b2, q2) →
        ∃ r, (retryLoop (provider (0 + k2)) (0 + k2) b2 q2 d retry 0).2 = .ok r := by
      intro k2 b2 q2 hk2 hg
      rw [Nat.zero_add]
      exact hprev k2 b2 q2 hk2 hg
    have habort := scanPairs_abort pairs 0 i b q (.domain e)
      hget hprev0 (by rw [Nat.zero_add]; exact hloop)
    refine ⟨e, hfe, ?_, ?_⟩
    · rw [hrun]
      exact habort.1
    · intro j b2 q2 hmem
      rw [hrun] at hmem
      have := habort.2 j b2 q2 hmem
      omega
  · intro hall
    have hall0 : ∀ (k2 : Nat) (b q : Str), pairs.get? k2 = some (b, q) →
        ∃ r, (retryLoop (provider (0 + k2)) (0 + k2) b q d retry 0).2 = .ok r := by
      intro k2 b q hg
      rw [Nat.zero_add]
      exact hall k2 b q hg
    obtain ⟨rs, hok, hlen, hpt⟩ := scanPairs_all_ok pairs 0 hall0
    refine ⟨rs, by rw [hrun]; exact hok, hlen, ?_⟩
    intro i b q hg
    have := hpt i b q hg
    rw [Nat.zero_add] at this
    exact this

/-- C1 witness: a batch of three pairs where the second always fails with
budget 1 — the run propagates that pair's network error and the third
pair is never attempted. -/
theorem c1_batch_abort_and_order_witness :
    (run_scanner wProvider wPairs (some (("k").data)) 1 5).2 =
      .error (.domain (.networkError (("CCC").data) (("DDD").data) (("boom").data)))
    ∧ ((run_scanner wProvider wPairs (some (("k").data)) 1 5).1.countP
        (isAttemptAt 2)) = 0 := by
  obtain ⟨e, hfe, hrun, hidx⟩ :=
    (c1_batch_abort_and_order wProvider wPairs (("k").data) 1 5 (by decide)).1
      1 (("CCC").data) (("DDD").data) (by decide)
      (by
        intro i2 b2 q2 hi2 hg
        interval_cases i2
        rw [show wPairs.get? 0 = some ((("AAA").data), (("BBB").data)) from by decide] at hg
        rw [Option.some.injEq, Prod.mk.injEq] at hg
        obtain ⟨h1, h2⟩ := hg
        subst h1
        subst h2
        exact ⟨{ from_currency := ("EUR").data, to_currency := ("USD").data,
                 rate := Rat.divInt 15 10, last_refreshed := ("t").data,
                 bid_price := none, ask_price := none }, by decide⟩)
      (fun j hj =>
        ⟨.networkError (("CCC").data) (("DDD").data) (("boom").data), rfl⟩)
  have he : e = .networkError (("CCC").data) (("DDD").data) (("boom").data) := by
    rw [show fetch_exchange_rate (wProvider 1 1) (("CCC").data) (("DDD").data) =
      .error (.domain (.networkError (("CCC").data) (("DDD").data) (("boom").data)))
      from by decide] at hfe
    rw [Except.error.injEq, FetchError.domain.injEq] at hfe
    exact hfe.symm
  subst he
  refine ⟨hrun, ?_⟩
  rw [List.countP_eq_zero]
  intro ev hev
  cases ev with
  | fetchAttempt j b2 q2 =>
    have := hidx j b2 q2 hev
    simp [isAttemptAt]
    omega
  | sleep x => simp [isAttemptAt]

/-! ### Lemmas for the clamping in `main` and for demo mode -/

theorem mainCore_trace {provider : Nat → Nat → HttpOutcome} {args : Args} :
    (mainCore provider args).1 = [] ∨
    ∃ pairs2, parse_pairs args.pairs = .ok pairs2 ∧
      (mainCore provider args).1 =
        (run_scanner provider pairs2 args.api_key (max 0 args.retry).toNat
          (max (Rat.divInt 1 2) args.retry_delay)).1 := by
  rcases hp : parse_pairs args.pairs with e | pairs2
  · left
    simp only [mainCore]
    rw [hp]
  · by_cases hdemo : args.demo
    · left
      simp only [mainCore]
      rw [hp]
      dsimp only
      rw [if_pos hdemo]
      rcases hl : load_demo_data pairs2 with e | rs <;> rfl
    · right
      refine ⟨pairs2, rfl, ?_⟩
      simp only [mainCore]
      rw [hp]
      dsimp only
      rw [if_neg hdemo]
      rcases hr : (run_scanner provider pairs2 args.api_key (max 0 args.retry).toNat
          (max (Rat.divInt 1 2) args.retry_delay)).2 with er | rs
      · cases er <;> rfl
      · rfl

theorem parse_pair_error_shape {raw : Str} {e : ScanError}
    (h : parse_pair raw = .error e) :
    (∃ r2, e = .invalidPairFormat r2) ∨ (∃ r2, e = .invalidPairEmptySide r2) := by
  simp only [parse_pair] at h
  split_ifs at h with h1 h2
  · rw [Except.error.injEq] at h
    exact Or.inr ⟨raw, h.symm⟩
  · rw [Except.error.injEq] at h
    exact Or.inl ⟨raw, h.symm⟩

theorem parse_pairs_error_shape :
    ∀ (raws : List Str) (e : ScanError), parse_pairs raws = .error e →
      (∃ r2, e = .invalidPairFormat r2) ∨ (∃ r2, e = .invalidPairEmptySide r2) := by
  intro raws
  induction raws with
  | nil =>
    intro e h
    exact absurd h (by simp [parse_pairs])
  | cons raw rest ih =>
    intro e h
    rcases hp : parse_pair raw with e0 | p
    · rw [parse_pairs_cons_error hp] at h
      rw [Except.error.injEq] at h
      subst h
      exact parse_pair_error_shape hp
    · rw [parse_pairs, hp] at h
      dsimp only [Bind.bind, Except.bind] at h
      rcases hrest : parse_pairs rest with e0 | ps <;> rw [hrest] at h <;>
        dsimp only [Bind.bind, Except.bind, Pure.pure, Except.pure] at h
      · rw [Except.error.injEq] at h
        subst h
        exact ih e0 hrest
      · exact absurd h (by simp)

theorem load_demo_data_error_shape :
    ∀ (ps : List (Str × Str)) (e : ScanError), load_demo_data ps = .error e →
      ∃ key2, e = .demoUnavailable key2 := by
  intro ps
  induction ps with
  | nil =>
    intro e h
    exact absurd h (by simp [load_demo_data])
  | cons hd tl ih =>
    intro e h
    obtain ⟨b, q⟩ := hd
    simp only [load_demo_data] at h
    rcases hk : getKey demo_payload (b ++ '/' :: q) with _ | sub <;> rw [hk] at h <;>
      dsimp only at h
    · rw [Except.error.injEq] at h
      exact ⟨b ++ '/' :: q, h.symm⟩
    rcases hfa : ExchangeRate.from_api sub with e0 | r0 <;> rw [hfa] at h <;> dsimp only at h
    · have hall : (demo_payload.map Prod.snd).all
          (fun sub => isOkResult (ExchangeRate.from_api sub)) = true := by decide
      have := List.all_eq_true.mp hall sub (getKey_mem hk)
      rw [hfa] at this
      simp [isOkResult] at this
    rcases hrest : load_demo_data tl with e0 | rs <;> rw [hrest] at h <;> dsimp only at h
    · rw [Except.error.injEq] at h
      subst h
      exact ih e0 hrest
    · exact absurd h (by simp)

/-- C8: the retry count and delay reaching the scan loop are the clamped
`max(0, retry)` and `max(0.5, retry_delay)` — the behaviour of `main`
depends only on the clamped values — and every wait actually performed
has the clamped, strictly positive duration, even for a zero or negative
user-supplied delay. -/
theorem c8_retry_clamping :
    ∀ (provider : Nat → Nat → HttpOutcome) (args : Args),
      mainCore provider args = mainCore provider
        { args with retry := max 0 args.retry,
                    retry_delay := max (Rat.divInt 1 2) args.retry_delay }
      ∧ (∀ x, Event.sleep x ∈ (mainCore provider args).1 →
          x = max (Rat.divInt 1 2) args.retry_delay ∧ 0 < x) := by
  intro provider args
  have h1 : max (0 : ℤ) (max 0 args.retry) = max 0 args.retry := by
    rw [← max_assoc, max_self]
  have h2 : max (Rat.divInt 1 2) (max (Rat.divInt 1 2) args.retry_delay) =
      max (Rat.divInt 1 2) args.retry_delay := by
    rw [← max_assoc, max_self]
  constructor
  · simp only [mainCore]
    rw [h1, h2]
  · intro x hx
    have hpos : (0 : ℚ) < max (Rat.divInt 1 2) args.retry_delay :=
      lt_of_lt_of_le (by decide) (le_max_left _ _)
    rcases @mainCore_trace provider args with htr | ⟨pairs2, hp, htr⟩
    · rw [htr] at hx
      cases hx
    · rw [htr] at hx
      have hxd := run_scanner_sleep_eq hx
      subst hxd
      exact ⟨rfl, hpos⟩

/-- C8 witness: with retry 1 and a negative user delay against a provider
that always fails, a wait occurs and its duration is the clamped positive
value. -/
theorem c8_retry_clamping_witness :
    (0 : ℚ) < max (Rat.divInt 1 2) (-3 : ℚ) :=
  ((c8_retry_clamping (fun _ _ => wErr)
    { pairs := [("EUR/USD").data], api_key := some (("k").data), retry := 1,
      retry_delay := -3, demo := false }).2
    (max (Rat.divInt 1 2) (-3 : ℚ)) (by decide)).2

/-- C10 counterexample: a demo-mode run whose pairs input fails
validation ends in the invalid-pair-format error — neither a success nor
the demo-pair-unavailable failure, refuting the claimed outcome shape for
arbitrary pairs input. -/
theorem c10_counterexample :
    (mainCore (fun _ _ => wErr)
      { pairs := [("EURUSD").data], api_key := none, retry := 1,
        retry_delay := 5, demo := true }).2 =
      .failure (.invalidPairFormat (("EURUSD").data))
    ∧ demoClaimOutcome (.failure (.invalidPairFormat (("EURUSD").data))) = false :=
  ⟨by decide, by decide⟩

/-- C10 (amended): demo mode never reads the credential — the run is
unchanged under any replacement of the credential (and of the provider),
performs no provider call, cannot fail with the missing-credential error,
and never crashes: it either succeeds or fails with a pair-validation
error or the demo-pair-unavailable error. -/
theorem c10_demo_no_credential :
    ∀ (provider provider2 : Nat → Nat → HttpOutcome) (args : Args) (k : Option Str),
      args.demo = true →
      mainCore provider args = mainCore provider2 { args with api_key := k }
      ∧ (mainCore provider args).1 = []
      ∧ (∀ e, (mainCore provider args).2 = .failure e →
          e ≠ .missingApiKey ∧
          ((∃ raw, e = .invalidPairFormat raw) ∨ (∃ raw, e = .invalidPairEmptySide raw) ∨
            (∃ key2, e = .demoUnavailable key2)))
      ∧ (∀ m, (mainCore provider args).2 ≠ .crash m) := by
  intro provider provider2 args k hdemo
  have hcore : ∀ (pr : Nat → Nat → HttpOutcome) (a2 : Args), a2.pairs = args.pairs →
      a2.demo = true →
      mainCore pr a2 =
        (match parse_pairs args.pairs with
          | .error e => ([], .failure e)
          | .ok pairs2 =>
            match load_demo_data pairs2 with
            | .error e => ([], .failure e)
            | .ok rs => ([], .success rs)) := by
    intro pr a2 hpeq hd
    simp only [mainCore, hpeq, hd]
    rcases parse_pairs args.pairs with e | pairs2 <;> dsimp only
    rcases load_demo_data pairs2 with e | rs <;> rfl
  have hmain := hcore provider args rfl hdemo
  have hmain2 := hcore provider2 { args with api_key := k } rfl hdemo
  refine ⟨by rw [hmain, hmain2], ?_, ?_, ?_⟩
  · rw [hmain]
    rcases parse_pairs args.pairs with e | pairs2 <;> dsimp only
    rcases load_demo_data pairs2 with e | rs <;> rfl
  · intro e he
    rw [hmain] at he
    rcases hp : parse_pairs args.pairs with e0 | pairs2 <;> rw [hp] at he <;> dsimp only at he
    · rw [RunOutcome.failure.injEq] at he
      subst he
      rcases parse_pairs_error_shape args.pairs e0 hp with ⟨r2, rfl⟩ | ⟨r2, rfl⟩
      · exact ⟨by simp, Or.inl ⟨r2, rfl⟩⟩
      · exact ⟨by simp, Or.inr (Or.inl ⟨r2, rfl⟩)⟩
    · rcases hl : load_demo_data pairs2 with e0 | rs <;> rw [hl] at he <;> dsimp only at he
      · rw [RunOutcome.failure.injEq] at he
        subst he
        obtain ⟨key2, rfl⟩ := load_demo_data_error_shape pairs2 e0 hl
        exact ⟨by simp, Or.inr (Or.inr ⟨key2, rfl⟩)⟩
      · exact absurd he (by simp)
  · intro m
    rw [hmain]
    rcases hp : parse_pairs args.pairs with e0 | pairs2 <;> dsimp only
    · simp
    · rcases hl : load_demo_data pairs2 with e0 | rs <;> dsimp only <;> simp

/-- C10 witness: a demo-mode run with no credential at all, on a valid
pair, performs no provider call. -/
theorem c10_demo_no_credential_witness :
    (mainCore (fun _ _ => wErr)
      { pairs := [("EUR/USD").data], api_key := none, retry := 0,
        retry_delay := 5, demo := true }).1 = [] :=
  ((c10_demo_no_credential (fun _ _ => wErr) (fun _ _ => wOk)
    { pairs := [("EUR/USD").data], api_key := none, retry := 0,
      retry_delay := 5, demo := true } (some (("zzz").data)) rfl).2.1)
